import Mathlib

/-!
Verification of the ResQ disaster-relief allocation engine.

Shallow embedding of `src/services/optimizer.py`, `src/services/event_handler.py`
and the ETA/distance helpers of `src/utils/distance_matrix.py` and `src/main.py`.

Modelling conventions:
* Python `int` fields are `ℤ`, Python `float` data is idealized as `ℚ`
  (exact arithmetic); the one genuinely irrational computation, the
  `math.sqrt` in the fairness KPI, lives in `ℝ`.
* The haversine great-circle distance (`math.sin`/`cos`/`atan2` on floats)
  is not shallowly embeddable; it is passed as an explicit parameter
  `hav : ℚ → ℚ → ℚ → ℚ → ℚ` wherever the source calls `haversine`.
* The OR-Tools CBC solver is modelled by its contract: a `Solution` assigns a
  rational value to every decision variable; `Feasible` states exactly the
  variable bounds and linear constraints that `optimize_plan` registers with
  the solver (integer variables take integer values); `IsOptimal` adds
  maximality of the objective the code builds.  `optimize_plan` takes an
  `Option Solution`: `none` models "no solver backend / solve ended neither
  OPTIMAL nor FEASIBLE", in which case the code returns its hard-coded empty
  plan; `some sol` models a successful solve returning `sol`.
* Python `round` is round-half-to-even (`pyRound` on `ℚ`, `pyRoundR` on `ℝ`);
  `round(x, 2)` is `round2Q` / `round2R`.
-/

/-- Zone record of `src/models.py` (floats idealized as `ℚ`). -/
structure Zone where
  zone_id : String
  name : String
  lat : ℚ
  lon : ℚ
  population : ℤ
  access : String
  severity : ℚ
  demand_food : ℤ
  demand_water : ℤ
  demand_med : ℤ
deriving DecidableEq, Repr

/-- Depot record of `src/models.py`. -/
structure Depot where
  depot_id : String
  name : String
  lat : ℚ
  lon : ℚ
  stock_food : ℤ
  stock_water : ℤ
  stock_med : ℤ
deriving DecidableEq, Repr

/-- Asset record of `src/models.py`. -/
structure Asset where
  asset_id : String
  type : String
  start_depot : String
  cap_food : ℤ
  cap_water : ℤ
  cap_med : ℤ
deriving DecidableEq, Repr

/-- Event record of `src/models.py` (optional fields are `Option`). -/
structure Event where
  type : String
  target_zone : String
  food_demand : Option ℤ := none
  water_demand : Option ℤ := none
  medical_demand : Option ℤ := none
  new_access : Option String := none
deriving DecidableEq, Repr

/-- Assignment record of `src/models.py`: integer loads and whole-minute ETA. -/
structure Assignment where
  asset_id : String
  zone_id : String
  load_food : ℤ
  load_water : ℤ
  load_med : ℤ
  eta_minutes : ℤ
deriving DecidableEq, Repr

/-- KPI record of `src/models.py`.  `coverage_percent` is a rational (the code
only ever produces rationals there); `fairness_percent` is real because the
fairness formula takes a square root. -/
structure KPIs where
  coverage_percent : ℚ
  fairness_percent : ℝ
  median_eta : ℤ

/-- Plan record of `src/models.py`. -/
structure Plan where
  assignments : List Assignment
  kpis : KPIs
  rationales : List String

/-- Python `round` on exact rationals: round half to even (banker's rounding),
as used by `int(round(...))` in `optimize_plan`. -/
def pyRound (q : ℚ) : ℤ :=
  if q - (⌊q⌋ : ℚ) < 1/2 then ⌊q⌋
  else if 1/2 < q - (⌊q⌋ : ℚ) then ⌊q⌋ + 1
  else if ⌊q⌋ % 2 = 0 then ⌊q⌋ else ⌊q⌋ + 1

/-- Python `round` on reals (round half to even). -/
noncomputable def pyRoundR (x : ℝ) : ℤ :=
  if x - (⌊x⌋ : ℝ) < 1/2 then ⌊x⌋
  else if 1/2 < x - (⌊x⌋ : ℝ) then ⌊x⌋ + 1
  else if ⌊x⌋ % 2 = 0 then ⌊x⌋ else ⌊x⌋ + 1

/-- Python `round(q, 2)` on rationals. -/
def round2Q (q : ℚ) : ℚ := (pyRound (q * 100) : ℚ) / 100

/-- Python `round(x, 2)` on reals. -/
noncomputable def round2R (x : ℝ) : ℝ := (pyRoundR (x * 100) : ℝ) / 100

/-- `_is_access_allowed` of `src/services/optimizer.py` (lines 12-17). -/
def is_access_allowed (asset_type zone_access : String) : Bool :=
  if asset_type = "truck" then zone_access == "road_open" || zone_access == "both"
  else if asset_type = "boat" then zone_access == "boat_only" || zone_access == "both"
  else false

/-- `_asset_speed_kmph` of `src/services/optimizer.py` (lines 20-25). -/
def asset_speed_kmph (asset_type : String) : ℚ :=
  if asset_type = "truck" then 35
  else if asset_type = "boat" then 20
  else 25

/-- `_median` of `src/services/optimizer.py` (lines 28-36): inserted-sort
ascending (the values' multiset is all that matters), two-point average on an
even count, `0` on an empty list.  `getD` indices are always in range for a
nonempty list, so the default is never consulted. -/
def insertAsc (x : ℤ) : List ℤ → List ℤ
  | [] => [x]
  | y :: ys => if x ≤ y then x :: y :: ys else y :: insertAsc x ys

/-- Ascending sort used by `medianOfInts` (Python `sorted`). -/
def sortAsc (l : List ℤ) : List ℤ := l.foldr insertAsc []

/-- The `_median` function applied to the (integer) ETA list. -/
def medianOfInts (l : List ℤ) : ℚ :=
  if l.isEmpty then 0
  else
    let s := sortAsc l
    let n := s.length
    let mid := n / 2
    if n % 2 = 1 then ((s.getD mid 0 : ℤ) : ℚ)
    else (((s.getD (mid - 1) 0 : ℤ) : ℚ) + ((s.getD mid 0 : ℤ) : ℚ)) / 2

/-- Python `str.strip` / `str.lower` character class: the ASCII whitespace
characters Python strips. -/
def isPySpace (c : Char) : Bool :=
  c = ' ' || c = '\t' || c = '\n' || c = '\r' || c = '\x0b' || c = '\x0c'

/-- Python `str.strip()`: drop leading and trailing whitespace. -/
def pyStrip (s : String) : String :=
  ⟨((s.data.dropWhile isPySpace).reverse.dropWhile isPySpace).reverse⟩

/-- Python `str.lower()` on one character (ASCII range, which covers every
identifier this embedding manipulates). -/
def pyLowerChar (c : Char) : Char :=
  if 'A' ≤ c && c ≤ 'Z' then Char.ofNat (c.toNat + 32) else c

/-- Python `str.lower()`. -/
def pyLower (s : String) : String := ⟨s.data.map pyLowerChar⟩

/-- The `depot_by_any` dictionary of `optimize_plan` (lines 62-68): each depot
registers four keys (id, stripped id, lowercased name, stripped lowercased
name); on key collisions the depot inserted last wins, hence the reversed
`find?`. -/
def depotByAny (depots : List Depot) (key : String) : Option Depot :=
  depots.reverse.find? (fun d =>
    key == d.depot_id || key == pyStrip d.depot_id ||
    key == pyLower d.name || key == pyLower (pyStrip d.name))

/-- `resolve_depot` of `optimize_plan` (lines 71-83): dictionary lookups of the
raw string, then its strip, its lower, and its stripped lower, first hit wins. -/
def resolve_depot (depots : List Depot) (s : String) : Option Depot :=
  ((depotByAny depots s).orElse fun _ => depotByAny depots (pyStrip s)).orElse fun _ =>
    ((depotByAny depots (pyLower s)).orElse fun _ => depotByAny depots (pyLower (pyStrip s)))

/-- The per-depot asset grouping of the stock constraints (lines 124-127):
exact match on the depot id, or case-insensitive match on the depot name.
Note this is not `resolve_depot`. -/
def homeMatch (d : Depot) (a : Asset) : Bool :=
  a.start_depot == d.depot_id || pyLower a.start_depot == pyLower d.name

/-- A solver solution: a value for each decision variable of the MIP, keyed by
asset id and zone id exactly as the `y`/`lf`/`lw`/`lm` dictionaries are. -/
structure Solution where
  y : String → String → ℚ
  lf : String → String → ℚ
  lw : String → String → ℚ
  lm : String → String → ℚ

/-- Load-variable upper bound (line 100): `BIG_M` if the pair is access-allowed,
`0` otherwise. -/
def loadUB (a : Asset) (z : Zone) : ℚ :=
  if is_access_allowed a.type z.access then 1000000 else 0

/-- The solver contract for a solve that ended OPTIMAL or FEASIBLE: the
returned values satisfy every variable bound and every constraint
`optimize_plan` registers (lines 95-130), with integer variables (the `y`)
taking integer values. -/
def Feasible (zones : List Zone) (depots : List Depot) (assets : List Asset)
    (sol : Solution) : Prop :=
  (∀ a ∈ assets, ∀ z ∈ zones,
      if is_access_allowed a.type z.access
      then sol.y a.asset_id z.zone_id = 0 ∨ sol.y a.asset_id z.zone_id = 1
      else sol.y a.asset_id z.zone_id = 0)
  ∧ (∀ a ∈ assets, ∀ z ∈ zones,
      (0 ≤ sol.lf a.asset_id z.zone_id ∧ sol.lf a.asset_id z.zone_id ≤ loadUB a z)
      ∧ (0 ≤ sol.lw a.asset_id z.zone_id ∧ sol.lw a.asset_id z.zone_id ≤ loadUB a z)
      ∧ (0 ≤ sol.lm a.asset_id z.zone_id ∧ sol.lm a.asset_id z.zone_id ≤ loadUB a z))
  ∧ (∀ a ∈ assets,
      (zones.map (fun z => sol.y a.asset_id z.zone_id)).sum ≤ 1)
  ∧ (∀ a ∈ assets, ∀ z ∈ zones,
      sol.lf a.asset_id z.zone_id ≤ (a.cap_food : ℚ) * sol.y a.asset_id z.zone_id
      ∧ sol.lw a.asset_id z.zone_id ≤ (a.cap_water : ℚ) * sol.y a.asset_id z.zone_id
      ∧ sol.lm a.asset_id z.zone_id ≤ (a.cap_med : ℚ) * sol.y a.asset_id z.zone_id)
  ∧ (∀ z ∈ zones,
      (assets.map (fun a => sol.lf a.asset_id z.zone_id)).sum ≤ (z.demand_food : ℚ)
      ∧ (assets.map (fun a => sol.lw a.asset_id z.zone_id)).sum ≤ (z.demand_water : ℚ)
      ∧ (assets.map (fun a => sol.lm a.asset_id z.zone_id)).sum ≤ (z.demand_med : ℚ))
  ∧ (∀ d ∈ depots,
      ((assets.filter (fun a => homeMatch d a)).map
        (fun a => (zones.map (fun z => sol.lf a.asset_id z.zone_id)).sum)).sum
        ≤ (d.stock_food : ℚ)
      ∧ ((assets.filter (fun a => homeMatch d a)).map
        (fun a => (zones.map (fun z => sol.lw a.asset_id z.zone_id)).sum)).sum
        ≤ (d.stock_water : ℚ)
      ∧ ((assets.filter (fun a => homeMatch d a)).map
        (fun a => (zones.map (fun z => sol.lm a.asset_id z.zone_id)).sum)).sum
        ≤ (d.stock_med : ℚ))

/-- The distance used for the objective's penalty term (lines 141-148): table
entry when the resolved depot's row has a nonzero entry for the zone, direct
haversine fallback otherwise, `0` when the home depot does not resolve. -/
def objDist (hav : ℚ → ℚ → ℚ → ℚ → ℚ) (dmat : String → String → Option ℚ)
    (depots : List Depot) (a : Asset) (z : Zone) : ℚ :=
  match resolve_depot depots a.start_depot with
  | none => 0
  | some dep =>
      let d0 := (dmat dep.depot_id z.zone_id).getD 0
      if d0 = 0 then hav dep.lat dep.lon z.lat z.lon else d0

/-- The objective of lines 132-151: total delivered load minus
`0.001 × distance × y` per (asset, zone) pair. -/
def objectiveValue (hav : ℚ → ℚ → ℚ → ℚ → ℚ) (dmat : String → String → Option ℚ)
    (zones : List Zone) (depots : List Depot) (assets : List Asset)
    (sol : Solution) : ℚ :=
  ((assets.map (fun a => (zones.map (fun z =>
      sol.lf a.asset_id z.zone_id + sol.lw a.asset_id z.zone_id
        + sol.lm a.asset_id z.zone_id)).sum)).sum)
  - ((assets.map (fun a => (zones.map (fun z =>
      (1/1000) * objDist hav dmat depots a z * sol.y a.asset_id z.zone_id)).sum)).sum)

/-- A solve outcome with status OPTIMAL: feasible and objective-maximal. -/
def IsOptimal (hav : ℚ → ℚ → ℚ → ℚ → ℚ) (dmat : String → String → Option ℚ)
    (zones : List Zone) (depots : List Depot) (assets : List Asset)
    (sol : Solution) : Prop :=
  Feasible zones depots assets sol ∧
    ∀ s : Solution, Feasible zones depots assets s →
      objectiveValue hav dmat zones depots assets s
        ≤ objectiveValue hav dmat zones depots assets sol

/-- ETA computation of the extraction loop (lines 177-187): direct haversine
distance from the resolved home depot (0 when unresolved), per-type speed
guarded by `max(speed, 1e-6)`, converted to minutes, Python-rounded, then
bumped to 1 when it rounded to 0 over a strictly positive distance.  (The
source re-tests `y >= 0.5` in the bump condition; that test is already true on
this path and is dropped.) -/
def etaFor (hav : ℚ → ℚ → ℚ → ℚ → ℚ) (depots : List Depot)
    (a : Asset) (z : Zone) : ℤ :=
  let dist : ℚ :=
    match resolve_depot depots a.start_depot with
    | some dep => hav dep.lat dep.lon z.lat z.lon
    | none => 0
  let e : ℤ := pyRound (dist / max (asset_speed_kmph a.type) (1/1000000) * 60)
  if e = 0 ∧ 0 < dist then 1 else e

/-- The Assignment emitted for an active (asset, zone) pair (lines 189-198):
loads Python-rounded from the solver values, ETA from `etaFor`. -/
def mkAssignment (hav : ℚ → ℚ → ℚ → ℚ → ℚ) (depots : List Depot)
    (sol : Solution) (a : Asset) (z : Zone) : Assignment :=
  { asset_id := a.asset_id
    zone_id := z.zone_id
    load_food := pyRound (sol.lf a.asset_id z.zone_id)
    load_water := pyRound (sol.lw a.asset_id z.zone_id)
    load_med := pyRound (sol.lm a.asset_id z.zone_id)
    eta_minutes := etaFor hav depots a z }

/-- Inner loop of the extraction (for one asset, over all zones): emit an
Assignment whenever the assignment variable's value clears the 0.5 threshold. -/
def emitRow (hav : ℚ → ℚ → ℚ → ℚ → ℚ) (depots : List Depot) (sol : Solution)
    (a : Asset) : List Zone → List Assignment
  | [] => []
  | z :: rest =>
      if (1/2 : ℚ) ≤ sol.y a.asset_id z.zone_id
      then mkAssignment hav depots sol a z :: emitRow hav depots sol a rest
      else emitRow hav depots sol a rest

/-- Outer extraction loop (lines 170-198): assets outer, zones inner. -/
def extractAssignments (hav : ℚ → ℚ → ℚ → ℚ → ℚ) (depots : List Depot)
    (zones : List Zone) (sol : Solution) : List Asset → List Assignment
  | [] => []
  | a :: rest =>
      emitRow hav depots sol a zones ++ extractAssignments hav depots zones sol rest

/-- Unrounded delivered food to one zone as the fairness loop computes it
(lines 225-228): solver load value when the pair is active, else 0. -/
def deliveredSolF (assets : List Asset) (sol : Solution) (z : Zone) : ℚ :=
  (assets.map (fun a =>
    if (1/2 : ℚ) ≤ sol.y a.asset_id z.zone_id
    then sol.lf a.asset_id z.zone_id else 0)).sum

/-- Unrounded delivered water to one zone (lines 229-232). -/
def deliveredSolW (assets : List Asset) (sol : Solution) (z : Zone) : ℚ :=
  (assets.map (fun a =>
    if (1/2 : ℚ) ≤ sol.y a.asset_id z.zone_id
    then sol.lw a.asset_id z.zone_id else 0)).sum

/-- Unrounded delivered medical to one zone (lines 233-236). -/
def deliveredSolM (assets : List Asset) (sol : Solution) (z : Zone) : ℚ :=
  (assets.map (fun a =>
    if (1/2 : ℚ) ≤ sol.y a.asset_id z.zone_id
    then sol.lm a.asset_id z.zone_id else 0)).sum

/-- The `unmet_per_zone` list (lines 223-238): per zone, the sum over the three
commodities of `max(demand - delivered, 0)` on unrounded solver values. -/
def unmetList (zones : List Zone) (assets : List Asset) (sol : Solution) : List ℚ :=
  zones.map (fun z =>
    max ((z.demand_food : ℚ) - deliveredSolF assets sol z) 0
    + max ((z.demand_water : ℚ) - deliveredSolW assets sol z) 0
    + max ((z.demand_med : ℚ) - deliveredSolM assets sol z) 0)

/-- The `mean_unmet` local of line 244. -/
def meanUnmet (zones : List Zone) (assets : List Asset) (sol : Solution) : ℚ :=
  (unmetList zones assets sol).sum / ((unmetList zones assets sol).length : ℚ)

/-- The `var_unmet` local of line 245 (population variance). -/
def varUnmet (zones : List Zone) (assets : List Asset) (sol : Solution) : ℚ :=
  ((unmetList zones assets sol).map
    (fun u => (u - meanUnmet zones assets sol) ^ 2)).sum
    / ((unmetList zones assets sol).length : ℚ)

/-- The `cv` local of line 247: 0 when the mean is 0, else std / mean. -/
noncomputable def cvUnmet (zones : List Zone) (assets : List Asset)
    (sol : Solution) : ℝ :=
  if meanUnmet zones assets sol = 0 then 0
  else Real.sqrt ((varUnmet zones assets sol : ℚ) : ℝ)
    / ((meanUnmet zones assets sol : ℚ) : ℝ)

/-- The fairness value of lines 240-248: 100 unless the unmet list is nonempty
with positive sum, in which case `max(0, 100 - min(100, cv*100))`. -/
noncomputable def fairnessOf (zones : List Zone) (assets : List Asset)
    (sol : Solution) : ℝ :=
  if unmetList zones assets sol ≠ [] ∧ 0 < (unmetList zones assets sol).sum then
    max 0 (100 - min 100 (cvUnmet zones assets sol * 100))
  else 100

/-- The coverage value of lines 161-220: `0` when total demand is `≤ 0`, else
`served / demand × 100` on the rounded served totals. -/
def coverageOf (zones : List Zone) (asgs : List Assignment) : ℚ :=
  let td : ℚ := (((zones.map (·.demand_food)).sum
      + (zones.map (·.demand_water)).sum + (zones.map (·.demand_med)).sum : ℤ) : ℚ)
  let ts : ℚ := (((asgs.map (·.load_food)).sum
      + (asgs.map (·.load_water)).sum + (asgs.map (·.load_med)).sum : ℤ) : ℚ)
  if td ≤ 0 then 0 else ts / td * 100

/-- Plan built from a successful solve (lines 157-254). -/
noncomputable def extractPlan (hav : ℚ → ℚ → ℚ → ℚ → ℚ) (zones : List Zone)
    (depots : List Depot) (assets : List Asset) (sol : Solution) : Plan :=
  let asgs := extractAssignments hav depots zones sol assets
  { assignments := asgs
    kpis :=
      { coverage_percent := round2Q (coverageOf zones asgs)
        fairness_percent := round2R (fairnessOf zones assets sol)
        median_eta := pyRound (medianOfInts (asgs.map (·.eta_minutes))) }
    rationales := [] }

/-- The hard-coded degraded plan of lines 52-55 and 154-155 (note: its
fairness is 0, not 100). -/
noncomputable def emptyPlan : Plan :=
  { assignments := [], kpis := { coverage_percent := 0, fairness_percent := 0, median_eta := 0 }, rationales := [] }

/-- `optimize_plan` of `src/services/optimizer.py`, parameterized by the solve
outcome: `none` for "no backend / neither OPTIMAL nor FEASIBLE" (degrade to
the empty plan), `some sol` for a successful solve returning `sol`.  The
distance-matrix argument only feeds the objective (which constrains `sol`
through `IsOptimal`), exactly as in the source, where extraction recomputes
distances directly. -/
noncomputable def optimize_plan (hav : ℚ → ℚ → ℚ → ℚ → ℚ)
    (_dmat : String → String → Option ℚ) (zones : List Zone)
    (depots : List Depot) (assets : List Asset) (res : Option Solution) : Plan :=
  match res with
  | none => emptyPlan
  | some sol => extractPlan hav zones depots assets sol

/-- Python truthiness of `x or default` on an optional string: `None` and the
empty string both fall back to the default. -/
def pyOr (o : Option String) (dflt : String) : String :=
  match o with
  | none => dflt
  | some s => if s = "" then dflt else s

/-- Zone match test of `apply_event` (line 23): by id or by display name. -/
def matchesTarget (e : Event) (z : Zone) : Bool :=
  z.zone_id == e.target_zone || z.name == e.target_zone

/-- Loop body of `apply_event` (lines 24-37) for a matching zone. -/
def applyZoneEvent (e : Event) (z : Zone) : Zone :=
  if e.type = "road_block" then { z with access := pyOr e.new_access "boat_only" }
  else if e.type = "road_clear" then { z with access := pyOr e.new_access "road_open" }
  else if e.type = "sos_spike" then
    { z with
      demand_food := e.food_demand.getD z.demand_food
      demand_water := e.water_demand.getD z.demand_water
      demand_med := e.medical_demand.getD z.demand_med }
  else z

/-- The in-place mutation loop of `apply_event` (lines 22-37): every matching
zone is updated, non-matching zones are untouched. -/
def applyEventZones (e : Event) : List Zone → List Zone
  | [] => []
  | z :: rest =>
      (if matchesTarget e z then applyZoneEvent e z else z) :: applyEventZones e rest

/-- `compute_distance_matrix` of `src/utils/distance_matrix.py`: nested dict
keyed by depot id then zone id; on duplicate ids the later record wins. -/
def computeDistanceMatrix (hav : ℚ → ℚ → ℚ → ℚ → ℚ) (depots : List Depot)
    (zones : List Zone) : String → String → Option ℚ :=
  fun did zid =>
    (depots.reverse.find? (fun d => d.depot_id == did)).bind fun d =>
      (zones.reverse.find? (fun z => z.zone_id == zid)).map fun z =>
        hav d.lat d.lon z.lat z.lon

/-- `apply_event` of `src/services/event_handler.py`: mutate every matching
zone, rebuild the distance matrix, re-run `optimize_plan` on the mutated
zones with the original depots and assets, and return a Plan unconditionally
(there is no zone-not-found check here).  The mutated zone list is returned
alongside the plan to model the in-place mutation of the caller's list. -/
noncomputable def apply_event (hav : ℚ → ℚ → ℚ → ℚ → ℚ) (e : Event)
    (zones : List Zone) (depots : List Depot) (assets : List Asset)
    (res : Option Solution) : List Zone × Plan :=
  let zones' := applyEventZones e zones
  (zones', optimize_plan hav (computeDistanceMatrix hav depots zones') zones' depots assets res)

/-- `apply_event_endpoint` of `src/main.py` (lines 197-206), reduced to its
control flow and state: run `apply_event` first, then look the target zone up
in the (mutated) zone list and raise a 404 when it is absent.  The endpoint's
response payload is abstracted to the mutated zones and the plan. -/
noncomputable def apply_event_endpoint (hav : ℚ → ℚ → ℚ → ℚ → ℚ) (e : Event)
    (zones : List Zone) (depots : List Depot) (assets : List Asset)
    (res : Option Solution) : Except String (List Zone × Plan) :=
  let st := apply_event hav e zones depots assets res
  match st.1.find? (fun z => z.zone_id == e.target_zone || z.name == e.target_zone) with
  | none => Except.error ("Zone " ++ e.target_zone ++ " not found")
  | some _ => Except.ok st

/-! ### Rounding lemmas -/

/-- Python-rounding an integer returns it unchanged. -/
theorem pyRound_intCast (k : ℤ) : pyRound (k : ℚ) = k := by
  simp [pyRound]

/-- Python-rounding a rational that is an integer is the identity after casting
back. -/
theorem pyRound_cast_of_int (q : ℚ) (h : ∃ k : ℤ, q = (k : ℚ)) :
    (pyRound q : ℚ) = q := by
  obtain ⟨k, rfl⟩ := h
  rw [pyRound_intCast]

/-- Python rounding preserves nonnegativity. -/
theorem pyRound_nonneg (q : ℚ) (h : 0 ≤ q) : 0 ≤ pyRound q := by
  have hn : (0 : ℤ) ≤ ⌊q⌋ := Int.floor_nonneg.mpr h
  unfold pyRound
  split_ifs <;> omega

/-- Python rounding on reals moves a value by at most one half, lower side. -/
theorem pyRoundR_ge (x : ℝ) : x - 1/2 ≤ (pyRoundR x : ℝ) := by
  have h1 : ((⌊x⌋ : ℤ) : ℝ) ≤ x := Int.floor_le x
  have h2 : x < (⌊x⌋ : ℤ) + 1 := Int.lt_floor_add_one x
  unfold pyRoundR
  split_ifs with hf hg hp <;> push_cast <;> linarith

/-- Python rounding on reals moves a value by at most one half, upper side. -/
theorem pyRoundR_le (x : ℝ) : (pyRoundR x : ℝ) ≤ x + 1/2 := by
  have h1 : ((⌊x⌋ : ℤ) : ℝ) ≤ x := Int.floor_le x
  have h2 : x < (⌊x⌋ : ℤ) + 1 := Int.lt_floor_add_one x
  unfold pyRoundR
  split_ifs with hf hg hp <;> push_cast <;> linarith

/-- Two-decimal Python rounding preserves nonnegativity. -/
theorem round2R_nonneg (x : ℝ) (h : 0 ≤ x) : 0 ≤ round2R x := by
  have hb : x * 100 - 1/2 ≤ (pyRoundR (x * 100) : ℝ) := pyRoundR_ge (x * 100)
  have hk : (0 : ℤ) ≤ pyRoundR (x * 100) := by
    by_contra hneg
    push_neg at hneg
    have : (pyRoundR (x * 100) : ℝ) ≤ -1 := by exact_mod_cast Int.le_sub_one_of_lt hneg
    nlinarith
  unfold round2R
  positivity

/-- Two-decimal Python rounding of a value at most 100 stays at most 100. -/
theorem round2R_le_hundred (x : ℝ) (h : x ≤ 100) : round2R x ≤ 100 := by
  have hb : (pyRoundR (x * 100) : ℝ) ≤ x * 100 + 1/2 := pyRoundR_le (x * 100)
  have hk : pyRoundR (x * 100) ≤ 10000 := by
    by_contra hg
    push_neg at hg
    have : (10001 : ℝ) ≤ (pyRoundR (x * 100) : ℝ) := by exact_mod_cast hg
    nlinarith
  have : (pyRoundR (x * 100) : ℝ) ≤ 10000 := by exact_mod_cast hk
  unfold round2R
  linarith

/-- Two-decimal rounding fixes 100. -/
theorem round2R_hundred : round2R (100 : ℝ) = 100 := by
  have h : (100 : ℝ) * 100 = ((10000 : ℤ) : ℝ) := by norm_num
  have : pyRoundR ((100 : ℝ) * 100) = 10000 := by
    unfold pyRoundR
    rw [h, Int.floor_intCast]
    norm_num
  unfold round2R
  rw [this]
  norm_num

/-- Two-decimal rounding fixes 0 (rational version). -/
theorem round2Q_zero : round2Q 0 = 0 := by
  norm_num [round2Q, pyRound]

/-- Two-decimal rounding fixes 0 (real version). -/
theorem round2R_zero : round2R 0 = 0 := by
  have : pyRoundR ((0 : ℝ) * 100) = 0 := by
    unfold pyRoundR
    norm_num
  unfold round2R
  rw [this]
  norm_num

/-! ### Claim-side definitions (delivered sums over the emitted Plan) -/

/-- Total emitted food load over the Plan's Assignments whose `zone_id` is the
given zone id. -/
def deliveredFoodTo (p : Plan) (zid : String) : ℤ :=
  ((p.assignments.filter (fun g => g.zone_id == zid)).map (·.load_food)).sum

/-- Total emitted water load to a zone id. -/
def deliveredWaterTo (p : Plan) (zid : String) : ℤ :=
  ((p.assignments.filter (fun g => g.zone_id == zid)).map (·.load_water)).sum

/-- Total emitted medical load to a zone id. -/
def deliveredMedTo (p : Plan) (zid : String) : ℤ :=
  ((p.assignments.filter (fun g => g.zone_id == zid)).map (·.load_med)).sum

/-- Total emitted food load over Assignments of assets in the stock-constraint
group of a depot (exact-id or case-insensitive-name match, the predicate the
code actually uses on lines 124-127). -/
def groupFood (p : Plan) (assets : List Asset) (d : Depot) : ℤ :=
  ((p.assignments.filter (fun g =>
    assets.any (fun a => homeMatch d a && a.asset_id == g.asset_id))).map (·.load_food)).sum

/-- Total emitted water load over the depot's stock-constraint group. -/
def groupWater (p : Plan) (assets : List Asset) (d : Depot) : ℤ :=
  ((p.assignments.filter (fun g =>
    assets.any (fun a => homeMatch d a && a.asset_id == g.asset_id))).map (·.load_water)).sum

/-- Total emitted medical load over the depot's stock-constraint group. -/
def groupMed (p : Plan) (assets : List Asset) (d : Depot) : ℤ :=
  ((p.assignments.filter (fun g =>
    assets.any (fun a => homeMatch d a && a.asset_id == g.asset_id))).map (·.load_med)).sum

/-- Total emitted food load over Assignments of assets whose raw home-depot
reference `resolve_depot`-resolves to the given depot — the grouping the claim
(and spec §4.2/§4.3) describes. -/
def resolvedGroupFood (p : Plan) (depots : List Depot) (assets : List Asset)
    (d : Depot) : ℤ :=
  ((p.assignments.filter (fun g =>
    assets.any (fun a =>
      (resolve_depot depots a.start_depot == some d) && a.asset_id == g.asset_id))).map
    (·.load_food)).sum

/-- A rational that is (exactly) an integer, as CBC returns for loads whenever
it reports a vertex solution. -/
def IsIntQ (q : ℚ) : Prop := ∃ k : ℤ, q = (k : ℚ)

/-- All load values of a solution are integral on the given index sets. -/
def IntegralLoads (zones : List Zone) (assets : List Asset) (sol : Solution) : Prop :=
  ∀ a ∈ assets, ∀ z ∈ zones,
    IsIntQ (sol.lf a.asset_id z.zone_id) ∧ IsIntQ (sol.lw a.asset_id z.zone_id)
      ∧ IsIntQ (sol.lm a.asset_id z.zone_id)

/-- The access-compatibility property of claim C3, in the claim's own words:
every Assignment pairs an asset of the input with a zone of the input such
that a truck only serves road_open/both and a boat only boat_only/both. -/
def AccessCompatible (zones : List Zone) (assets : List Asset) (p : Plan) : Prop :=
  ∀ g ∈ p.assignments, ∃ a ∈ assets, a.asset_id = g.asset_id ∧
    ∃ z ∈ zones, z.zone_id = g.zone_id ∧
      (a.type = "truck" → z.access = "road_open" ∨ z.access = "both") ∧
      (a.type = "boat" → z.access = "boat_only" ∨ z.access = "both")

/-! ### Extraction lemmas -/

/-- Every Assignment of an asset's row carries that asset's id and arises from
a zone of the list whose assignment variable clears the 0.5 threshold. -/
theorem mem_emitRow (hav : ℚ → ℚ → ℚ → ℚ → ℚ) (depots : List Depot)
    (sol : Solution) (a : Asset) (zones : List Zone) (g : Assignment)
    (h : g ∈ emitRow hav depots sol a zones) :
    ∃ z ∈ zones, (1/2 : ℚ) ≤ sol.y a.asset_id z.zone_id
      ∧ g = mkAssignment hav depots sol a z := by
  induction zones with
  | nil => simp [emitRow] at h
  | cons z rest ih =>
    by_cases hy : (1/2 : ℚ) ≤ sol.y a.asset_id z.zone_id
    · rw [emitRow, if_pos hy] at h
      rcases List.mem_cons.mp h with hh | hh
      · exact ⟨z, List.mem_cons_self z rest, hy, hh⟩
      · obtain ⟨z', hz', hy', hg⟩ := ih hh
        exact ⟨z', List.mem_cons_of_mem z hz', hy', hg⟩
    · rw [emitRow, if_neg hy] at h
      obtain ⟨z', hz', hy', hg⟩ := ih h
      exact ⟨z', List.mem_cons_of_mem z hz', hy', hg⟩

/-- Every extracted Assignment arises from an asset of the list and a zone of
the list whose assignment variable clears the 0.5 threshold. -/
theorem mem_extractAssignments (hav : ℚ → ℚ → ℚ → ℚ → ℚ) (depots : List Depot)
    (zones : List Zone) (sol : Solution) (assets : List Asset) (g : Assignment)
    (h : g ∈ extractAssignments hav depots zones sol assets) :
    ∃ a ∈ assets, ∃ z ∈ zones, (1/2 : ℚ) ≤ sol.y a.asset_id z.zone_id
      ∧ g = mkAssignment hav depots sol a z := by
  induction assets with
  | nil => simp [extractAssignments] at h
  | cons a rest ih =>
    rw [extractAssignments] at h
    rcases List.mem_append.mp h with h | h
    · obtain ⟨z, hz, hy, hg⟩ := mem_emitRow hav depots sol a zones g h
      exact ⟨a, List.mem_cons_self a rest, z, hz, hy, hg⟩
    · obtain ⟨a', ha', rest'⟩ := ih h
      exact ⟨a', List.mem_cons_of_mem a ha', rest'⟩

/-- Sum of a load projection over the filtered row of one asset, expressed as
a zone-indexed sum. -/
theorem sum_filter_emitRow (hav : ℚ → ℚ → ℚ → ℚ → ℚ) (depots : List Depot)
    (sol : Solution) (a : Asset) (zones : List Zone)
    (pred : Assignment → Bool) (f : Assignment → ℤ) :
    (((emitRow hav depots sol a zones).filter pred).map f).sum
      = (zones.map (fun z =>
          if (1/2 : ℚ) ≤ sol.y a.asset_id z.zone_id
              ∧ pred (mkAssignment hav depots sol a z) = true
          then f (mkAssignment hav depots sol a z) else 0)).sum := by
  induction zones with
  | nil => simp [emitRow]
  | cons z rest ih =>
    by_cases hy : (1/2 : ℚ) ≤ sol.y a.asset_id z.zone_id
    · rw [emitRow, if_pos hy]
      by_cases hp : pred (mkAssignment hav depots sol a z) = true
      · rw [List.filter_cons_of_pos hp, List.map_cons, List.sum_cons, ih,
          List.map_cons, List.sum_cons, if_pos ⟨hy, hp⟩]
      · rw [List.filter_cons_of_neg (by simpa using hp), ih, List.map_cons,
          List.sum_cons, if_neg (fun hc => hp hc.2), zero_add]
    · rw [emitRow, if_neg hy, ih, List.map_cons, List.sum_cons,
        if_neg (fun hc => hy hc.1), zero_add]

/-- Sum of a load projection over the filtered extraction, expressed as an
asset-indexed sum of row sums. -/
theorem sum_filter_extract (hav : ℚ → ℚ → ℚ → ℚ → ℚ) (depots : List Depot)
    (zones : List Zone) (sol : Solution) (assets : List Asset)
    (pred : Assignment → Bool) (f : Assignment → ℤ) :
    (((extractAssignments hav depots zones sol assets).filter pred).map f).sum
      = (assets.map (fun a =>
          (((emitRow hav depots sol a zones).filter pred).map f).sum)).sum := by
  induction assets with
  | nil => simp [extractAssignments]
  | cons a rest ih =>
    rw [extractAssignments]
    simp [List.filter_append, ih]

/-- Casting an integer list sum to the rationals distributes over the list. -/
theorem cast_listSum {α : Type} (l : List α) (g : α → ℤ) :
    (((l.map g).sum : ℤ) : ℚ) = (l.map (fun x => ((g x : ℤ) : ℚ))).sum := by
  induction l with
  | nil => simp
  | cons x rest ih => push_cast [List.map_cons, List.sum_cons, ih]; ring

/-- Commuting a conjunction out of a guard. -/
theorem if_and_comm_zero {P Q : Prop} [Decidable P] [Decidable Q] (t : ℤ) :
    (if P ∧ Q then t else 0) = if Q then (if P then t else 0) else 0 := by
  split_ifs <;> first | rfl | tauto

/-- Under distinct zone ids, a zone-id-guarded sum collapses to the single
matching zone's term. -/
theorem zone_sum_single (zones : List Zone) (z₀ : Zone) (hz : z₀ ∈ zones)
    (hnd : (zones.map Zone.zone_id).Nodup) (g : Zone → ℤ) :
    (zones.map (fun z => if z.zone_id == z₀.zone_id then g z else 0)).sum = g z₀ := by
  induction zones with
  | nil => cases hz
  | cons z rest ih =>
    rw [List.map_cons, List.sum_cons]
    rcases List.mem_cons.mp hz with rfl | hz'
    · rw [if_pos (by simp)]
      have hrest : (rest.map (fun z' => if z'.zone_id == z₀.zone_id then g z' else 0)).sum = 0 := by
        apply List.sum_eq_zero
        intro x hx
        obtain ⟨z', hz', rfl⟩ := List.mem_map.mp hx
        have hne : z'.zone_id ≠ z₀.zone_id := by
          intro he
          have : z₀.zone_id ∈ rest.map Zone.zone_id :=
            List.mem_map.mpr ⟨z', hz', he⟩
          exact (List.nodup_cons.mp hnd).1 this
        simp [hne]
      rw [hrest, add_zero]
    · have hne : z.zone_id ≠ z₀.zone_id := by
        intro he
        have : z.zone_id ∈ rest.map Zone.zone_id :=
          List.mem_map.mpr ⟨z₀, hz', he.symm⟩
        exact (List.nodup_cons.mp hnd).1 this
      rw [if_neg (by simp [hne]), zero_add]
      exact ih hz' (List.nodup_cons.mp hnd).2

/-- Filtered-sum versus guarded-sum over a list, rational version. -/
theorem sum_filter_eq_sum_ite {α : Type} (l : List α) (p : α → Bool) (h : α → ℚ) :
    ((l.filter p).map h).sum = (l.map (fun x => if p x then h x else 0)).sum := by
  induction l with
  | nil => simp
  | cons x rest ih =>
    by_cases hp : p x = true
    · rw [List.filter_cons_of_pos hp, List.map_cons, List.sum_cons, ih,
        List.map_cons, List.sum_cons, if_pos hp]
    · rw [List.filter_cons_of_neg (by simpa using hp), ih, List.map_cons,
        List.sum_cons, if_neg hp, zero_add]

/-- The per-zone delivered sum of any integer projection of the emitted
Assignments, under distinct zone ids: only the target zone's column remains. -/
theorem delivered_sum_eq (hav : ℚ → ℚ → ℚ → ℚ → ℚ) (depots : List Depot)
    (zones : List Zone) (sol : Solution) (assets : List Asset) (z₀ : Zone)
    (hz : z₀ ∈ zones) (hnd : (zones.map Zone.zone_id).Nodup) (f : Assignment → ℤ) :
    (((extractAssignments hav depots zones sol assets).filter
        (fun g => g.zone_id == z₀.zone_id)).map f).sum
      = (assets.map (fun a =>
          if (1/2 : ℚ) ≤ sol.y a.asset_id z₀.zone_id
          then f (mkAssignment hav depots sol a z₀) else 0)).sum := by
  rw [sum_filter_extract]
  congr 1
  apply List.map_congr_left
  intro a _
  rw [sum_filter_emitRow]
  have hcongr : ∀ z : Zone,
      (if (1/2 : ℚ) ≤ sol.y a.asset_id z.zone_id
          ∧ ((mkAssignment hav depots sol a z).zone_id == z₀.zone_id) = true
       then f (mkAssignment hav depots sol a z) else 0)
      = (if z.zone_id == z₀.zone_id
         then (if (1/2 : ℚ) ≤ sol.y a.asset_id z.zone_id
               then f (mkAssignment hav depots sol a z) else 0) else 0) := by
    intro z
    have hmz : (mkAssignment hav depots sol a z).zone_id = z.zone_id := rfl
    rw [hmz, if_and_comm_zero]
  calc (zones.map (fun z =>
          if (1/2 : ℚ) ≤ sol.y a.asset_id z.zone_id
              ∧ ((mkAssignment hav depots sol a z).zone_id == z₀.zone_id) = true
          then f (mkAssignment hav depots sol a z) else 0)).sum
      = (zones.map (fun z => if z.zone_id == z₀.zone_id
          then (if (1/2 : ℚ) ≤ sol.y a.asset_id z.zone_id
                then f (mkAssignment hav depots sol a z) else 0) else 0)).sum := by
        exact congrArg List.sum (List.map_congr_left (fun z _ => hcongr z))
    _ = (if (1/2 : ℚ) ≤ sol.y a.asset_id z₀.zone_id
          then f (mkAssignment hav depots sol a z₀) else 0) :=
        zone_sum_single zones z₀ hz hnd _

/-- Core bound behind claims C1/C2: a guarded, rounded column sum is bounded
by the unrounded column sum once loads are integral and nonnegative. -/
theorem guarded_round_sum_le (assets : List Asset) (sol : Solution)
    (ld : String → String → ℚ) (zid : String)
    (h0 : ∀ a ∈ assets, 0 ≤ ld a.asset_id zid)
    (hint : ∀ a ∈ assets, IsIntQ (ld a.asset_id zid)) :
    ((assets.map (fun a =>
        if (1/2 : ℚ) ≤ sol.y a.asset_id zid then pyRound (ld a.asset_id zid) else 0)).sum : ℚ)
      ≤ (assets.map (fun a => ld a.asset_id zid)).sum := by
  rw [cast_listSum]
  apply List.sum_le_sum
  intro a ha
  by_cases hy : (1/2 : ℚ) ≤ sol.y a.asset_id zid
  · rw [if_pos hy]
    rw [pyRound_cast_of_int _ (hint a ha)]
  · rw [if_neg hy]
    simpa using h0 a ha

/-- C1 (amended): in every Plan returned by `optimize_plan`, for every zone of
an input with distinct zone ids and non-negative demands, the per-commodity
sums of the emitted (integer-rounded) loads over the Assignments targeting
that zone stay within the zone's demands, provided the solver's load values
are integral (the constraint the code imposes bounds the unrounded values, so
integrality of the returned loads is what makes the rounded sums safe). -/
theorem optimize_plan_zone_demand (hav : ℚ → ℚ → ℚ → ℚ → ℚ)
    (dmat : String → String → Option ℚ) (zones : List Zone) (depots : List Depot)
    (assets : List Asset) (res : Option Solution)
    (hfeas : ∀ sol ∈ res, Feasible zones depots assets sol)
    (hint : ∀ sol ∈ res, IntegralLoads zones assets sol)
    (hnd : (zones.map Zone.zone_id).Nodup)
    (hdem : ∀ z ∈ zones, 0 ≤ z.demand_food ∧ 0 ≤ z.demand_water ∧ 0 ≤ z.demand_med) :
    ∀ z ∈ zones,
      deliveredFoodTo (optimize_plan hav dmat zones depots assets res) z.zone_id
          ≤ z.demand_food
      ∧ deliveredWaterTo (optimize_plan hav dmat zones depots assets res) z.zone_id
          ≤ z.demand_water
      ∧ deliveredMedTo (optimize_plan hav dmat zones depots assets res) z.zone_id
          ≤ z.demand_med := by
  intro z hz
  match res with
  | none =>
      simp [optimize_plan, emptyPlan, deliveredFoodTo, deliveredWaterTo, deliveredMedTo]
      exact hdem z hz
  | some sol =>
      have hf := hfeas sol rfl
      have hi := hint sol rfl
      obtain ⟨hy01, hbounds, hone, hcap, hzone, hdepot⟩ := hf
      have hplan : (optimize_plan hav dmat zones depots assets (some sol)).assignments
          = extractAssignments hav depots zones sol assets := rfl
      refine ⟨?_, ?_, ?_⟩
      · have heq := delivered_sum_eq hav depots zones sol assets z hz hnd (·.load_food)
        have hle := guarded_round_sum_le assets sol sol.lf z.zone_id
          (fun a ha => ((hbounds a ha z hz).1).1)
          (fun a ha => (hi a ha z hz).1)
        have hcon := (hzone z hz).1
        have : (deliveredFoodTo (optimize_plan hav dmat zones depots assets (some sol))
            z.zone_id : ℚ) ≤ (z.demand_food : ℚ) := by
          unfold deliveredFoodTo
          rw [hplan, heq]
          exact le_trans hle hcon
        exact_mod_cast this
      · have heq := delivered_sum_eq hav depots zones sol assets z hz hnd (·.load_water)
        have hle := guarded_round_sum_le assets sol sol.lw z.zone_id
          (fun a ha => ((hbounds a ha z hz).2.1).1)
          (fun a ha => (hi a ha z hz).2.1)
        have hcon := (hzone z hz).2.1
        have : (deliveredWaterTo (optimize_plan hav dmat zones depots assets (some sol))
            z.zone_id : ℚ) ≤ (z.demand_water : ℚ) := by
          unfold deliveredWaterTo
          rw [hplan, heq]
          exact le_trans hle hcon
        exact_mod_cast this
      · have heq := delivered_sum_eq hav depots zones sol assets z hz hnd (·.load_med)
        have hle := guarded_round_sum_le assets sol sol.lm z.zone_id
          (fun a ha => ((hbounds a ha z hz).2.2).1)
          (fun a ha => (hi a ha z hz).2.2)
        have hcon := (hzone z hz).2.2
        have : (deliveredMedTo (optimize_plan hav dmat zones depots assets (some sol))
            z.zone_id : ℚ) ≤ (z.demand_med : ℚ) := by
          unfold deliveredMedTo
          rw [hplan, heq]
          exact le_trans hle hcon
        exact_mod_cast this

/-! ### Concrete inputs for counterexamples and witnesses -/

/-- Degenerate distance function (all points coincident), used where geometry
is irrelevant. -/
def havZero : ℚ → ℚ → ℚ → ℚ → ℚ := fun _ _ _ _ => 0

/-- Empty distance table (the code then falls back to direct recomputation). -/
def dmatNone : String → String → Option ℚ := fun _ _ => none

/-- One road-open zone demanding 5 food. -/
def zC1 : Zone :=
  { zone_id := "Z1", name := "Zone One", lat := 0, lon := 0, population := 100,
    access := "road_open", severity := 1/2, demand_food := 5, demand_water := 0,
    demand_med := 0 }

/-- One depot with ample stock. -/
def dC1 : Depot :=
  { depot_id := "D1", name := "Main", lat := 0, lon := 0, stock_food := 10,
    stock_water := 10, stock_med := 10 }

/-- Three identical two-capacity trucks homed at `D1`. -/
def aT1 : Asset :=
  { asset_id := "T1", type := "truck", start_depot := "D1", cap_food := 2,
    cap_water := 0, cap_med := 0 }

/-- Second truck of the C1 instance. -/
def aT2 : Asset := { aT1 with asset_id := "T2" }

/-- Third truck of the C1 instance. -/
def aT3 : Asset := { aT1 with asset_id := "T3" }

/-- Fractional solver solution: every truck assigned, each delivering 5/3
food — feasible (sum = 5 = demand) and objective-maximal. -/
def solC1 : Solution :=
  { y := fun _ _ => 1, lf := fun _ _ => 5/3, lw := fun _ _ => 0, lm := fun _ _ => 0 }

/-- The fractional solution of the C1 instance is feasible. -/
theorem solC1_feasible : Feasible [zC1] [dC1] [aT1, aT2, aT3] solC1 := by
  refine ⟨?_, ?_, ?_, ?_, ?_, ?_⟩ <;>
    simp [zC1, dC1, aT1, aT2, aT3, solC1, is_access_allowed, loadUB, homeMatch] <;>
    norm_num

/-- With the degenerate distance function and the empty table, the objective's
distance penalty vanishes on every pair. -/
theorem objDist_havZero (depots : List Depot) (a : Asset) (z : Zone) :
    objDist havZero dmatNone depots a z = 0 := by
  unfold objDist
  cases resolve_depot depots a.start_depot <;> simp [havZero, dmatNone]

/-- With the degenerate distance function, the objective is the total load. -/
theorem objectiveValue_havZero (zones : List Zone) (depots : List Depot)
    (assets : List Asset) (s : Solution) :
    objectiveValue havZero dmatNone zones depots assets s
      = (assets.map (fun a => (zones.map (fun z =>
          s.lf a.asset_id z.zone_id + s.lw a.asset_id z.zone_id
            + s.lm a.asset_id z.zone_id)).sum)).sum := by
  unfold objectiveValue
  rw [sub_eq_self]
  apply List.sum_eq_zero
  intro x hx
  obtain ⟨a, _, rfl⟩ := List.mem_map.mp hx
  apply List.sum_eq_zero
  intro t ht
  obtain ⟨z, _, rfl⟩ := List.mem_map.mp ht
  rw [objDist_havZero]
  ring

/-- The fractional solution of the C1 instance is objective-optimal. -/
theorem solC1_optimal : IsOptimal havZero dmatNone [zC1] [dC1] [aT1, aT2, aT3] solC1 := by
  constructor
  · exact solC1_feasible
  · intro s hs
    obtain ⟨hy01, hbounds, hone, hcap, hzone, hdepot⟩ := hs
    have hz1 : s.lf "T1" "Z1" + s.lf "T2" "Z1" + s.lf "T3" "Z1" ≤ (5 : ℚ) := by
      have h := (hzone zC1 (by simp)).1
      simp only [zC1, aT1, aT2, aT3, List.map_cons, List.map_nil, List.sum_cons,
        List.sum_nil] at h
      push_cast at h
      linarith
    have hcw1 : s.lw "T1" "Z1" ≤ 0 := by
      have h := (hcap aT1 (by simp) zC1 (by simp)).2.1
      simpa [zC1, aT1] using h
    have hcw2 : s.lw "T2" "Z1" ≤ 0 := by
      have h := (hcap aT2 (by simp) zC1 (by simp)).2.1
      simpa [zC1, aT1, aT2] using h
    have hcw3 : s.lw "T3" "Z1" ≤ 0 := by
      have h := (hcap aT3 (by simp) zC1 (by simp)).2.1
      simpa [zC1, aT1, aT3] using h
    have hcm1 : s.lm "T1" "Z1" ≤ 0 := by
      have h := (hcap aT1 (by simp) zC1 (by simp)).2.2
      simpa [zC1, aT1] using h
    have hcm2 : s.lm "T2" "Z1" ≤ 0 := by
      have h := (hcap aT2 (by simp) zC1 (by simp)).2.2
      simpa [zC1, aT1, aT2] using h
    have hcm3 : s.lm "T3" "Z1" ≤ 0 := by
      have h := (hcap aT3 (by simp) zC1 (by simp)).2.2
      simpa [zC1, aT1, aT3] using h
    rw [objectiveValue_havZero, objectiveValue_havZero]
    simp only [zC1, aT1, aT2, aT3, solC1, List.map_cons, List.map_nil,
      List.sum_cons, List.sum_nil]
    norm_num
    linarith

/-- C1 counterexample: on the three-truck instance the solver may return the
(optimal) fractional solution with loads 5/3 each; the emitted Plan then
carries rounded loads 2+2+2 = 6 to a zone whose food demand is 5, violating
the claim as stated. -/
theorem claim_c1_counterexample :
    IsOptimal havZero dmatNone [zC1] [dC1] [aT1, aT2, aT3] solC1
    ∧ ¬ (deliveredFoodTo
          (optimize_plan havZero dmatNone [zC1] [dC1] [aT1, aT2, aT3] (some solC1))
          zC1.zone_id ≤ zC1.demand_food) := by
  constructor
  · exact solC1_optimal
  · have : deliveredFoodTo
        (optimize_plan havZero dmatNone [zC1] [dC1] [aT1, aT2, aT3] (some solC1))
        zC1.zone_id = 6 := by
      simp only [optimize_plan, extractPlan, deliveredFoodTo, extractAssignments,
        emitRow, mkAssignment, zC1, dC1, aT1, aT2, aT3, solC1]
      norm_num [pyRound]
    rw [this]
    norm_num [zC1]

/-- Integral single-truck solution on the C1 data (used as a witness input). -/
def solInt : Solution :=
  { y := fun _ _ => 1, lf := fun _ _ => 2, lw := fun _ _ => 0, lm := fun _ _ => 0 }

/-- The integral solution is feasible on the one-truck instance. -/
theorem solInt_feasible : Feasible [zC1] [dC1] [aT1] solInt := by
  refine ⟨?_, ?_, ?_, ?_, ?_, ?_⟩ <;>
    simp [zC1, dC1, aT1, solInt, is_access_allowed, loadUB, homeMatch] <;>
    norm_num

/-- Witness for the amended C1 theorem at a concrete integral solve. -/
theorem optimize_plan_zone_demand_witness :
    deliveredFoodTo (optimize_plan havZero dmatNone [zC1] [dC1] [aT1] (some solInt))
        zC1.zone_id ≤ zC1.demand_food
    ∧ deliveredWaterTo (optimize_plan havZero dmatNone [zC1] [dC1] [aT1] (some solInt))
        zC1.zone_id ≤ zC1.demand_water
    ∧ deliveredMedTo (optimize_plan havZero dmatNone [zC1] [dC1] [aT1] (some solInt))
        zC1.zone_id ≤ zC1.demand_med :=
  optimize_plan_zone_demand havZero dmatNone [zC1] [dC1] [aT1] (some solInt)
    (fun sol hsol => by rw [Option.mem_def, Option.some_inj] at hsol; rw [← hsol]; exact solInt_feasible)
    (fun sol hsol => by
      rw [Option.mem_def, Option.some_inj] at hsol
      rw [← hsol]
      intro a _ z _
      exact ⟨⟨2, by norm_num [solInt]⟩, ⟨0, by norm_num [solInt]⟩, ⟨0, by norm_num [solInt]⟩⟩)
    (by simp)
    (by intro z hz; rw [List.mem_singleton] at hz; rw [hz]; simp [zC1])
    zC1 (by simp)

/-- Under distinct asset ids, the "some group asset carries this id" test on an
Assignment of asset `a` collapses to the group test on `a` itself. -/
theorem group_pred_eq (assets : List Asset) (d : Depot) (a : Asset)
    (ha : a ∈ assets) (hnd : (assets.map Asset.asset_id).Nodup) :
    assets.any (fun a2 => homeMatch d a2 && a2.asset_id == a.asset_id)
      = homeMatch d a := by
  cases h : homeMatch d a with
  | true =>
      apply List.any_eq_true.mpr
      exact ⟨a, ha, by simp [h]⟩
  | false =>
      apply List.any_eq_false.mpr
      intro a2 ha2
      intro hcontra
      rw [Bool.and_eq_true, beq_iff_eq] at hcontra
      obtain ⟨hm2, hid⟩ := hcontra
      have : a2 = a := List.inj_on_of_nodup_map hnd ha2 ha hid
      rw [this] at hm2
      rw [hm2] at h
      cases h

/-- Pulling a constant conjunct out of a guarded sum. -/
theorem sum_if_const {α : Type} (l : List α) (A : α → Prop) [DecidablePred A]
    (C : Prop) [Decidable C] (t : α → ℤ) :
    (l.map (fun x => if A x ∧ C then t x else 0)).sum
      = if C then (l.map (fun x => if A x then t x else 0)).sum else 0 := by
  by_cases hc : C
  · simp [hc]
  · simp [hc]

/-- Guarded rounded sums are bounded by unrounded sums (generic list form). -/
theorem guarded_round_le_general {α : Type} (l : List α) (cond : α → Prop)
    [DecidablePred cond] (v : α → ℚ)
    (h0 : ∀ x ∈ l, 0 ≤ v x) (hint : ∀ x ∈ l, IsIntQ (v x)) :
    ((l.map (fun x => if cond x then pyRound (v x) else 0)).sum : ℚ)
      ≤ (l.map v).sum := by
  rw [cast_listSum]
  apply List.sum_le_sum
  intro x hx
  by_cases hc : cond x
  · rw [if_pos hc, pyRound_cast_of_int _ (hint x hx)]
  · rw [if_neg hc]
    simpa using h0 x hx

/-- Filtered-sum versus guarded-sum over a list, integer version. -/
theorem sum_filter_eq_sum_ite_int {α : Type} (l : List α) (p : α → Bool) (h : α → ℚ) :
    ((l.filter p).map h).sum = (l.map (fun x => if p x then h x else 0)).sum :=
  sum_filter_eq_sum_ite l p h

/-- Core bound for C2: the rounded loads emitted for the assets of a depot's
stock-constraint group stay within any bound on the group's unrounded column
sums, for one commodity selected by `sel`/`ld`. -/
theorem group_delivered_le (hav : ℚ → ℚ → ℚ → ℚ → ℚ) (depots : List Depot)
    (zones : List Zone) (sol : Solution) (assets : List Asset) (d : Depot)
    (ld : String → String → ℚ) (sel : Assignment → ℤ) (S : ℚ)
    (hsel : ∀ a z, sel (mkAssignment hav depots sol a z)
        = pyRound (ld a.asset_id z.zone_id))
    (hnd : (assets.map Asset.asset_id).Nodup)
    (h0 : ∀ a ∈ assets, ∀ z ∈ zones, 0 ≤ ld a.asset_id z.zone_id)
    (hintl : ∀ a ∈ assets, ∀ z ∈ zones, IsIntQ (ld a.asset_id z.zone_id))
    (hcon : ((assets.filter (fun a => homeMatch d a)).map
        (fun a => (zones.map (fun z => ld a.asset_id z.zone_id)).sum)).sum ≤ S) :
    ((((extractAssignments hav depots zones sol assets).filter
        (fun g => assets.any (fun a => homeMatch d a && a.asset_id == g.asset_id))).map
      sel).sum : ℚ) ≤ S := by
  rw [sum_filter_extract, cast_listSum]
  have step : ∀ a ∈ assets,
      (((((emitRow hav depots sol a zones).filter
          (fun g => assets.any (fun a2 => homeMatch d a2 && a2.asset_id == g.asset_id))).map
        sel).sum : ℤ) : ℚ)
      ≤ (if homeMatch d a then (zones.map (fun z => ld a.asset_id z.zone_id)).sum else 0) := by
    intro a ha
    rw [sum_filter_emitRow]
    have hrw : ∀ z : Zone,
        (if (1/2 : ℚ) ≤ sol.y a.asset_id z.zone_id
            ∧ (assets.any (fun a2 => homeMatch d a2
                && a2.asset_id == (mkAssignment hav depots sol a z).asset_id)) = true
         then sel (mkAssignment hav depots sol a z) else 0)
        = (if (1/2 : ℚ) ≤ sol.y a.asset_id z.zone_id ∧ homeMatch d a = true
           then pyRound (ld a.asset_id z.zone_id) else 0) := by
      intro z
      have hid : (mkAssignment hav depots sol a z).asset_id = a.asset_id := rfl
      rw [hid, group_pred_eq assets d a ha hnd, hsel]
    rw [List.map_congr_left (fun z _ => hrw z), sum_if_const]
    by_cases hm : homeMatch d a = true
    · rw [if_pos hm, if_pos hm]
      exact guarded_round_le_general zones _ _ (h0 a ha) (hintl a ha)
    · rw [if_neg hm, if_neg hm]
      norm_num
  calc ((assets.map (fun a =>
        (((((emitRow hav depots sol a zones).filter
            (fun g => assets.any (fun a2 => homeMatch d a2 && a2.asset_id == g.asset_id))).map
          sel).sum : ℤ) : ℚ))).sum)
      ≤ (assets.map (fun a =>
          if homeMatch d a then (zones.map (fun z => ld a.asset_id z.zone_id)).sum else 0)).sum :=
        List.sum_le_sum step
    _ = ((assets.filter (fun a => homeMatch d a)).map
          (fun a => (zones.map (fun z => ld a.asset_id z.zone_id)).sum)).sum :=
        (sum_filter_eq_sum_ite assets _ _).symm
    _ ≤ S := hcon

/-- C2 (amended): the depot-stock bound holds for the grouping the constraint
actually uses — assets whose raw home-depot string equals the depot id exactly
or the depot name case-insensitively (`homeMatch`), not the `resolve_depot`
chain — and, as in C1, for the emitted integer-rounded loads it needs the
solver's load values to be integral. -/
theorem optimize_plan_depot_stock (hav : ℚ → ℚ → ℚ → ℚ → ℚ)
    (dmat : String → String → Option ℚ) (zones : List Zone) (depots : List Depot)
    (assets : List Asset) (res : Option Solution)
    (hfeas : ∀ sol ∈ res, Feasible zones depots assets sol)
    (hint : ∀ sol ∈ res, IntegralLoads zones assets sol)
    (hnda : (assets.map Asset.asset_id).Nodup)
    (hstock : ∀ d ∈ depots, 0 ≤ d.stock_food ∧ 0 ≤ d.stock_water ∧ 0 ≤ d.stock_med) :
    ∀ d ∈ depots,
      groupFood (optimize_plan hav dmat zones depots assets res) assets d ≤ d.stock_food
      ∧ groupWater (optimize_plan hav dmat zones depots assets res) assets d ≤ d.stock_water
      ∧ groupMed (optimize_plan hav dmat zones depots assets res) assets d ≤ d.stock_med := by
  intro d hd
  match res with
  | none =>
      simp [optimize_plan, emptyPlan, groupFood, groupWater, groupMed]
      exact hstock d hd
  | some sol =>
      have hf := hfeas sol rfl
      have hi := hint sol rfl
      obtain ⟨hy01, hbounds, hone, hcap, hzone, hdepot⟩ := hf
      have hplan : (optimize_plan hav dmat zones depots assets (some sol)).assignments
          = extractAssignments hav depots zones sol assets := rfl
      refine ⟨?_, ?_, ?_⟩
      · have hle := group_delivered_le hav depots zones sol assets d sol.lf
          (·.load_food) (d.stock_food : ℚ) (fun a z => rfl) hnda
          (fun a ha z hz => ((hbounds a ha z hz).1).1)
          (fun a ha z hz => (hi a ha z hz).1)
          (hdepot d hd).1
        have : (groupFood (optimize_plan hav dmat zones depots assets (some sol)) assets d : ℚ)
            ≤ (d.stock_food : ℚ) := by
          unfold groupFood
          rw [hplan]
          exact hle
        exact_mod_cast this
      · have hle := group_delivered_le hav depots zones sol assets d sol.lw
          (·.load_water) (d.stock_water : ℚ) (fun a z => rfl) hnda
          (fun a ha z hz => ((hbounds a ha z hz).2.1).1)
          (fun a ha z hz => (hi a ha z hz).2.1)
          (hdepot d hd).2.1
        have : (groupWater (optimize_plan hav dmat zones depots assets (some sol)) assets d : ℚ)
            ≤ (d.stock_water : ℚ) := by
          unfold groupWater
          rw [hplan]
          exact hle
        exact_mod_cast this
      · have hle := group_delivered_le hav depots zones sol assets d sol.lm
          (·.load_med) (d.stock_med : ℚ) (fun a z => rfl) hnda
          (fun a ha z hz => ((hbounds a ha z hz).2.2).1)
          (fun a ha z hz => (hi a ha z hz).2.2)
          (hdepot d hd).2.2
        have : (groupMed (optimize_plan hav dmat zones depots assets (some sol)) assets d : ℚ)
            ≤ (d.stock_med : ℚ) := by
          unfold groupMed
          rw [hplan]
          exact hle
        exact_mod_cast this

/-- Zone of the C2 instance: road-open, food demand 10. -/
def zX : Zone :=
  { zone_id := "Z1", name := "Zone One", lat := 0, lon := 0, population := 100,
    access := "road_open", severity := 1/2, demand_food := 10, demand_water := 0,
    demand_med := 0 }

/-- Depot of the C2 instance: only 3 food in stock. -/
def dX : Depot :=
  { depot_id := "D1", name := "Main", lat := 0, lon := 0, stock_food := 3,
    stock_water := 3, stock_med := 3 }

/-- Truck of the C2 instance: its home-depot reference has surrounding
whitespace, so it resolves to `D1` only through the trimmed lookup — which the
stock constraint's grouping does not perform. -/
def aX : Asset :=
  { asset_id := "A1", type := "truck", start_depot := " D1 ", cap_food := 10,
    cap_water := 0, cap_med := 0 }

/-- Solver solution delivering the full 10 food from the whitespace-homed
truck. -/
def solX : Solution :=
  { y := fun _ _ => 1, lf := fun _ _ => 10, lw := fun _ _ => 0, lm := fun _ _ => 0 }

/-- The whitespace-homed asset escapes the depot's stock-constraint group. -/
theorem homeMatch_dX_aX : homeMatch dX aX = false := by decide

/-- The C2 solution is feasible: the depot constraint sums over an empty
group, so the 10-unit delivery never meets the 3-unit stock bound. -/
theorem solX_feasible : Feasible [zX] [dX] [aX] solX := by
  have hfilter : List.filter (fun a => homeMatch dX a) [aX] = [] := by decide
  refine ⟨?_, ?_, ?_, ?_, ?_, ?_⟩
  · simp [zX, dX, aX, solX, is_access_allowed]
  · simp [zX, dX, aX, solX, is_access_allowed, loadUB]
    norm_num
  · simp [zX, dX, aX, solX]
  · simp [zX, dX, aX, solX]
  · simp [zX, dX, aX, solX]
  · intro d hd
    rw [List.mem_singleton] at hd
    subst hd
    rw [hfilter]
    simp [dX]

/-- The C2 solution is objective-optimal. -/
theorem solX_optimal : IsOptimal havZero dmatNone [zX] [dX] [aX] solX := by
  constructor
  · exact solX_feasible
  · intro s hs
    obtain ⟨hy01, hbounds, hone, hcap, hzone, hdepot⟩ := hs
    have hz1 : s.lf "A1" "Z1" ≤ (10 : ℚ) := by
      have h := (hzone zX (by simp)).1
      simp only [zX, aX, List.map_cons, List.map_nil, List.sum_cons,
        List.sum_nil] at h
      push_cast at h
      linarith
    have hcw1 : s.lw "A1" "Z1" ≤ 0 := by
      have h := (hcap aX (by simp) zX (by simp)).2.1
      simpa [zX, aX] using h
    have hcm1 : s.lm "A1" "Z1" ≤ 0 := by
      have h := (hcap aX (by simp) zX (by simp)).2.2
      simpa [zX, aX] using h
    rw [objectiveValue_havZero, objectiveValue_havZero]
    simp only [zX, aX, solX, List.map_cons, List.map_nil, List.sum_cons, List.sum_nil]
    norm_num
    linarith

/-- C2 counterexample: the asset's reference `" D1 "` resolves (per the helper
and per the claim's resolution chain, via the trimmed-identifier step) to depot
`D1`, yet the optimizer's stock constraint groups assets by exact-id or
case-insensitive-name match only, so the plan delivers 10 food from a depot
stocking 3 — the claim as stated fails even on an optimal, integral solve. -/
theorem claim_c2_counterexample :
    IsOptimal havZero dmatNone [zX] [dX] [aX] solX
    ∧ resolve_depot [dX] aX.start_depot = some dX
    ∧ ¬ (resolvedGroupFood
          (optimize_plan havZero dmatNone [zX] [dX] [aX] (some solX)) [dX] [aX] dX
          ≤ dX.stock_food) := by
  refine ⟨solX_optimal, by decide, ?_⟩
  have hres : resolve_depot [dX] aX.start_depot = some dX := by decide
  have heta : etaFor havZero [dX] aX zX = 0 := by
    unfold etaFor
    rw [hres]
    norm_num [havZero, pyRound]
  have hasg : extractAssignments havZero [dX] [zX] solX [aX]
      = [{ asset_id := "A1", zone_id := "Z1", load_food := 10, load_water := 0,
           load_med := 0, eta_minutes := 0 }] := by
    unfold extractAssignments extractAssignments emitRow emitRow mkAssignment
    rw [if_pos (by norm_num [solX])]
    rw [heta]
    norm_num [solX, pyRound]
    exact ⟨rfl, rfl⟩
  have hval : resolvedGroupFood
      (optimize_plan havZero dmatNone [zX] [dX] [aX] (some solX)) [dX] [aX] dX = 10 := by
    have hplan : (optimize_plan havZero dmatNone [zX] [dX] [aX] (some solX)).assignments
        = extractAssignments havZero [dX] [zX] solX [aX] := rfl
    unfold resolvedGroupFood
    rw [hplan, hasg]
    have hpred : ([aX].any (fun a =>
        (resolve_depot [dX] a.start_depot == some dX) && a.asset_id == "A1")) = true := by
      decide
    rw [List.filter_cons_of_pos (by simpa using hpred)]
    simp
  rw [hval]
  norm_num [dX]

/-- Witness for the amended C2 theorem at a concrete integral solve. -/
theorem optimize_plan_depot_stock_witness :
    groupFood (optimize_plan havZero dmatNone [zC1] [dC1] [aT1] (some solInt)) [aT1] dC1
        ≤ dC1.stock_food
    ∧ groupWater (optimize_plan havZero dmatNone [zC1] [dC1] [aT1] (some solInt)) [aT1] dC1
        ≤ dC1.stock_water
    ∧ groupMed (optimize_plan havZero dmatNone [zC1] [dC1] [aT1] (some solInt)) [aT1] dC1
        ≤ dC1.stock_med :=
  optimize_plan_depot_stock havZero dmatNone [zC1] [dC1] [aT1] (some solInt)
    (fun sol hsol => by rw [Option.mem_def, Option.some_inj] at hsol; rw [← hsol]; exact solInt_feasible)
    (fun sol hsol => by
      rw [Option.mem_def, Option.some_inj] at hsol
      rw [← hsol]
      intro a _ z _
      exact ⟨⟨2, by norm_num [solInt]⟩, ⟨0, by norm_num [solInt]⟩, ⟨0, by norm_num [solInt]⟩⟩)
    (by simp)
    (by intro d hd; rw [List.mem_singleton] at hd; rw [hd]; simp [dC1])
    dC1 (by simp)

/-- Unfolding `is_access_allowed` into the spec's access table. -/
theorem is_access_allowed_spec (t acc : String) (h : is_access_allowed t acc = true) :
    (t = "truck" → acc = "road_open" ∨ acc = "both")
    ∧ (t = "boat" → acc = "boat_only" ∨ acc = "both") := by
  unfold is_access_allowed at h
  split_ifs at h with h1 h2
  · rw [Bool.or_eq_true, beq_iff_eq, beq_iff_eq] at h
    refine ⟨fun _ => h, fun hb => ?_⟩
    rw [h1] at hb
    exact absurd hb (by decide)
  · rw [Bool.or_eq_true, beq_iff_eq, beq_iff_eq] at h
    exact ⟨fun ht => absurd ht h1, fun _ => h⟩

/-- C3: every Assignment of every Plan returned by `optimize_plan` pairs an
input asset with an input zone whose access mode is compatible with the
asset's type (truck only to road_open/both, boat only to boat_only/both):
incompatible pairs have their assignment variable pinned to 0, below the
emission threshold. -/
theorem optimize_plan_access_compatible (hav : ℚ → ℚ → ℚ → ℚ → ℚ)
    (dmat : String → String → Option ℚ) (zones : List Zone) (depots : List Depot)
    (assets : List Asset) (res : Option Solution)
    (hfeas : ∀ sol ∈ res, Feasible zones depots assets sol) :
    AccessCompatible zones assets (optimize_plan hav dmat zones depots assets res) := by
  match res with
  | none =>
      intro g hg
      simp [optimize_plan, emptyPlan] at hg
  | some sol =>
      intro g hg
      have hg2 : g ∈ extractAssignments hav depots zones sol assets := hg
      obtain ⟨a, ha, z, hz, hy, rfl⟩ :=
        mem_extractAssignments hav depots zones sol assets g hg2
      have hferes := (hfeas sol rfl).1 a ha z hz
      have hallowed : is_access_allowed a.type z.access = true := by
        by_contra hna
        rw [if_neg hna] at hferes
        rw [hferes] at hy
        norm_num at hy
      have hspec := is_access_allowed_spec a.type z.access hallowed
      exact ⟨a, ha, rfl, z, hz, rfl, hspec.1, hspec.2⟩

/-- Witness for C3 at a concrete successful solve. -/
theorem optimize_plan_access_compatible_witness :
    AccessCompatible [zC1] [aT1]
      (optimize_plan havZero dmatNone [zC1] [dC1] [aT1] (some solInt)) :=
  optimize_plan_access_compatible havZero dmatNone [zC1] [dC1] [aT1] (some solInt)
    (fun sol hsol => by
      rw [Option.mem_def, Option.some_inj] at hsol
      rw [← hsol]
      exact solInt_feasible)

/-- Every Assignment of one asset's row carries that asset's id. -/
theorem emitRow_asset_id (hav : ℚ → ℚ → ℚ → ℚ → ℚ) (depots : List Depot)
    (sol : Solution) (a : Asset) (zones : List Zone) (g : Assignment)
    (h : g ∈ emitRow hav depots sol a zones) : g.asset_id = a.asset_id := by
  obtain ⟨z, _, _, rfl⟩ := mem_emitRow hav depots sol a zones g h
  rfl

/-- Length of one asset's row, as a guarded rational sum. -/
theorem length_emitRow_eq (hav : ℚ → ℚ → ℚ → ℚ → ℚ) (depots : List Depot)
    (sol : Solution) (a : Asset) (zones : List Zone) :
    ((emitRow hav depots sol a zones).length : ℚ)
      = (zones.map (fun z =>
          if (1/2 : ℚ) ≤ sol.y a.asset_id z.zone_id then (1 : ℚ) else 0)).sum := by
  induction zones with
  | nil => simp [emitRow]
  | cons z rest ih =>
    by_cases hy : (1/2 : ℚ) ≤ sol.y a.asset_id z.zone_id
    · rw [emitRow, if_pos hy, List.length_cons, List.map_cons, List.sum_cons, if_pos hy]
      push_cast [ih]
      ring
    · rw [emitRow, if_neg hy, List.map_cons, List.sum_cons, if_neg hy, zero_add, ih]

/-- An asset's "serves at most one zone" constraint bounds its row length. -/
theorem length_emitRow_le_one (hav : ℚ → ℚ → ℚ → ℚ → ℚ) (depots : List Depot)
    (sol : Solution) (a : Asset) (zones : List Zone)
    (hy01 : ∀ z ∈ zones, sol.y a.asset_id z.zone_id = 0 ∨ sol.y a.asset_id z.zone_id = 1)
    (hone : (zones.map (fun z => sol.y a.asset_id z.zone_id)).sum ≤ 1) :
    (emitRow hav depots sol a zones).length ≤ 1 := by
  have hq : ((emitRow hav depots sol a zones).length : ℚ) ≤ 1 := by
    rw [length_emitRow_eq]
    refine le_trans (List.sum_le_sum ?_) hone
    intro z hz
    rcases hy01 z hz with h0 | h1
    · rw [h0]
      rw [if_neg (by norm_num)]
    · rw [h1, if_pos (by norm_num)]
  exact_mod_cast hq

/-- A list of length at most 1 has no duplicates. -/
theorem nodup_of_length_le_one {α : Type} (l : List α) (h : l.length ≤ 1) : l.Nodup := by
  match l with
  | [] => exact List.nodup_nil
  | [x] => exact List.nodup_singleton x
  | x :: y :: rest => simp at h

/-- C4: under distinct input asset ids, the emitted asset-id list of every
Plan returned by `optimize_plan` has no duplicates (each asset serves at most
one zone or stays idle). -/
theorem optimize_plan_asset_unique (hav : ℚ → ℚ → ℚ → ℚ → ℚ)
    (dmat : String → String → Option ℚ) (zones : List Zone) (depots : List Depot)
    (assets : List Asset) (res : Option Solution)
    (hfeas : ∀ sol ∈ res, Feasible zones depots assets sol)
    (hnda : (assets.map Asset.asset_id).Nodup) :
    (((optimize_plan hav dmat zones depots assets res).assignments.map
        Assignment.asset_id)).Nodup := by
  match res with
  | none => simp [optimize_plan, emptyPlan]
  | some sol =>
      have hf := hfeas sol rfl
      have hy01 : ∀ a ∈ assets, ∀ z ∈ zones,
          sol.y a.asset_id z.zone_id = 0 ∨ sol.y a.asset_id z.zone_id = 1 := by
        intro a ha z hz
        have h := hf.1 a ha z hz
        split_ifs at h with hacc
        · exact h
        · exact Or.inl h
      have hone := hf.2.2.1
      have hgen : ∀ al : List Asset,
          (∀ a ∈ al, ∀ z ∈ zones,
            sol.y a.asset_id z.zone_id = 0 ∨ sol.y a.asset_id z.zone_id = 1) →
          (∀ a ∈ al, (zones.map (fun z => sol.y a.asset_id z.zone_id)).sum ≤ 1) →
          (al.map Asset.asset_id).Nodup →
          ((extractAssignments hav depots zones sol al).map Assignment.asset_id).Nodup := by
        intro al
        induction al with
        | nil => intro _ _ _; simp [extractAssignments]
        | cons a rest ih =>
          intro h01 h1 hnd
          rw [extractAssignments, List.map_append]
          rw [List.nodup_append]
          refine ⟨?_, ?_, ?_⟩
          · apply nodup_of_length_le_one
            rw [List.length_map]
            exact length_emitRow_le_one hav depots sol a zones
              (h01 a (List.mem_cons_self a rest)) (h1 a (List.mem_cons_self a rest))
          · exact ih (fun a2 ha2 => h01 a2 (List.mem_cons_of_mem a ha2))
              (fun a2 ha2 => h1 a2 (List.mem_cons_of_mem a ha2))
              (List.nodup_cons.mp hnd).2
          · intro x hxl hxr
            obtain ⟨g, hg, rfl⟩ := List.mem_map.mp hxl
            obtain ⟨g2, hg2, hgid⟩ := List.mem_map.mp hxr
            have hga : g.asset_id = a.asset_id :=
              emitRow_asset_id hav depots sol a zones g hg
            obtain ⟨a2, ha2, z2, _, _, rfl⟩ :=
              mem_extractAssignments hav depots zones sol rest g2 hg2
            have : a.asset_id ∈ rest.map Asset.asset_id := by
              apply List.mem_map.mpr
              refine ⟨a2, ha2, ?_⟩
              have hmk : (mkAssignment hav depots sol a2 z2).asset_id = a2.asset_id := rfl
              rw [hmk] at hgid
              rw [hgid, hga]
            exact (List.nodup_cons.mp hnd).1 this
      exact hgen assets hy01 hone hnda

/-- Witness for C4 at a concrete successful solve. -/
theorem optimize_plan_asset_unique_witness :
    (((optimize_plan havZero dmatNone [zC1] [dC1] [aT1] (some solInt)).assignments.map
        Assignment.asset_id)).Nodup :=
  optimize_plan_asset_unique havZero dmatNone [zC1] [dC1] [aT1] (some solInt)
    (fun sol hsol => by
      rw [Option.mem_def, Option.some_inj] at hsol
      rw [← hsol]
      exact solInt_feasible)
    (by simp)

/-- ETA formula as the claim words it: great-circle distance from the
resolved home depot to the zone, divided by the per-type speed (35/20/25),
converted to minutes and Python-rounded, with a floor of 1 minute whenever
the distance is strictly positive. -/
def etaSpecFor (hav : ℚ → ℚ → ℚ → ℚ → ℚ) (depots : List Depot)
    (a : Asset) (z : Zone) : ℤ :=
  let dist : ℚ :=
    match resolve_depot depots a.start_depot with
    | some dep => hav dep.lat dep.lon z.lat z.lon
    | none => 0
  if 0 < dist then max 1 (pyRound (dist / asset_speed_kmph a.type * 60))
  else pyRound (dist / asset_speed_kmph a.type * 60)

/-- Every per-type speed is at least 20 km/h. -/
theorem asset_speed_ge (t : String) : 20 ≤ asset_speed_kmph t := by
  unfold asset_speed_kmph
  split_ifs <;> norm_num

/-- The code's ETA computation coincides with the claim's formula: the
`max(speed, 1e-6)` guard is inert (speeds are ≥ 20) and the "bump 0 to 1"
step equals a floor of 1 for positive distances. -/
theorem etaFor_eq_spec (hav : ℚ → ℚ → ℚ → ℚ → ℚ) (depots : List Depot)
    (a : Asset) (z : Zone) : etaFor hav depots a z = etaSpecFor hav depots a z := by
  unfold etaFor etaSpecFor
  have hsp : (1/1000000 : ℚ) ≤ asset_speed_kmph a.type :=
    le_trans (by norm_num) (asset_speed_ge a.type)
  rw [max_eq_left hsp]
  set dist : ℚ :=
    (match resolve_depot depots a.start_depot with
     | some dep => hav dep.lat dep.lon z.lat z.lon
     | none => 0) with hdist
  set e : ℤ := pyRound (dist / asset_speed_kmph a.type * 60) with he
  by_cases hd : 0 < dist
  · have hsp0 : 0 < asset_speed_kmph a.type :=
      lt_of_lt_of_le (by norm_num) (asset_speed_ge a.type)
    have hq : 0 ≤ dist / asset_speed_kmph a.type * 60 := by positivity
    have he0 : 0 ≤ e := pyRound_nonneg _ hq
    rw [if_pos hd]
    by_cases hz : e = 0
    · rw [if_pos ⟨hz, hd⟩, ← he, hz]
      norm_num
    · rw [if_neg (fun hc => hz hc.1), ← he]
      have h1 : 1 ≤ e := lt_of_le_of_ne he0 (fun hx => hz hx.symm)
      exact (max_eq_right h1).symm
  · rw [if_neg (fun hc => hd hc.2), if_neg hd]

/-- Scenario distance function: every depot-zone pair is 10 km apart. -/
def hav10 : ℚ → ℚ → ℚ → ℚ → ℚ := fun _ _ _ _ => 10

/-- Scenario zone: road-open, food demand 5. -/
def zS : Zone :=
  { zone_id := "Z1", name := "Zone One", lat := 0, lon := 0, population := 100,
    access := "road_open", severity := 1/2, demand_food := 5, demand_water := 0,
    demand_med := 0 }

/-- Scenario depot `D` with food stock 20. -/
def dS : Depot :=
  { depot_id := "D1", name := "Main", lat := 0, lon := 0, stock_food := 20,
    stock_water := 20, stock_med := 20 }

/-- Scenario truck with food capacity 10 homed at `D1`. -/
def aS : Asset :=
  { asset_id := "A1", type := "truck", start_depot := "D1", cap_food := 10,
    cap_water := 0, cap_med := 0 }

/-- The reference solution of the scenario: assigned, delivering 5 food. -/
def solS : Solution :=
  { y := fun _ _ => 1, lf := fun _ _ => 5, lw := fun _ _ => 0, lm := fun _ _ => 0 }

/-- The scenario depot resolves from the asset's reference by exact id. -/
theorem resolve_dS : resolve_depot [dS] aS.start_depot = some dS := by decide

/-- The scenario's objective, in closed form. -/
theorem objectiveValue_scenario (s : Solution) :
    objectiveValue hav10 dmatNone [zS] [dS] [aS] s
      = s.lf "A1" "Z1" + s.lw "A1" "Z1" + s.lm "A1" "Z1" - (1/100) * s.y "A1" "Z1" := by
  have hd : objDist hav10 dmatNone [dS] aS zS = 10 := by
    unfold objDist
    rw [resolve_dS]
    norm_num [dmatNone, hav10]
  unfold objectiveValue
  rw [List.map_cons, List.map_nil, List.map_cons, List.map_nil]
  simp only [List.map_cons, List.map_nil, List.sum_cons, List.sum_nil]
  rw [hd]
  have ha : aS.asset_id = "A1" := rfl
  have hz : zS.zone_id = "Z1" := rfl
  rw [ha, hz]
  ring

/-- The reference solution of the scenario is feasible. -/
theorem solS_feasible : Feasible [zS] [dS] [aS] solS := by
  refine ⟨?_, ?_, ?_, ?_, ?_, ?_⟩ <;>
    simp [zS, dS, aS, solS, is_access_allowed, loadUB, homeMatch] <;>
    norm_num

/-- The scenario ETA: 10 km at 35 km/h Python-rounds to 17 minutes. -/
theorem etaFor_scenario : etaFor hav10 [dS] aS zS = 17 := by
  unfold etaFor
  rw [resolve_dS]
  have hsp : asset_speed_kmph aS.type = 35 := by decide
  rw [hsp]
  have hmax : max (35 : ℚ) (1/1000000) = 35 := by
    apply max_eq_left
    norm_num
  rw [hmax]
  norm_num [hav10, pyRound]

/-- In the single-truck scenario every optimal solve assigns the truck,
delivers exactly 5 food and nothing else. -/
theorem scenario_solution (sol : Solution)
    (hopt : IsOptimal hav10 dmatNone [zS] [dS] [aS] sol) :
    sol.y "A1" "Z1" = 1 ∧ sol.lf "A1" "Z1" = 5
      ∧ sol.lw "A1" "Z1" = 0 ∧ sol.lm "A1" "Z1" = 0 := by
  obtain ⟨hfs, hmax⟩ := hopt
  have hobjS : objectiveValue hav10 dmatNone [zS] [dS] [aS] solS = 499/100 := by
    rw [objectiveValue_scenario]
    norm_num [solS]
  have hge : (499/100 : ℚ) ≤ objectiveValue hav10 dmatNone [zS] [dS] [aS] sol := by
    rw [← hobjS]
    exact hmax solS solS_feasible
  rw [objectiveValue_scenario] at hge
  have hy : sol.y "A1" "Z1" = 0 ∨ sol.y "A1" "Z1" = 1 := by
    have h := hfs.1 aS (by simp) zS (by simp)
    rw [if_pos (by decide)] at h
    exact h
  have hlf5 : sol.lf "A1" "Z1" ≤ 5 := by
    have h := (hfs.2.2.2.2.1 zS (by simp)).1
    simp only [zS, aS, List.map_cons, List.map_nil, List.sum_cons, List.sum_nil] at h
    push_cast at h
    linarith
  have hlfcap : sol.lf "A1" "Z1" ≤ 10 * sol.y "A1" "Z1" := by
    have h := (hfs.2.2.2.1 aS (by simp) zS (by simp)).1
    simpa [aS, zS] using h
  have hlfge : (0 : ℚ) ≤ sol.lf "A1" "Z1" := ((hfs.2.1 aS (by simp) zS (by simp)).1).1
  have hlwle : sol.lw "A1" "Z1" ≤ 0 := by
    have h := (hfs.2.2.2.1 aS (by simp) zS (by simp)).2.1
    simpa [aS, zS] using h
  have hlwge : (0 : ℚ) ≤ sol.lw "A1" "Z1" := ((hfs.2.1 aS (by simp) zS (by simp)).2.1).1
  have hlmle : sol.lm "A1" "Z1" ≤ 0 := by
    have h := (hfs.2.2.2.1 aS (by simp) zS (by simp)).2.2
    simpa [aS, zS] using h
  have hlmge : (0 : ℚ) ≤ sol.lm "A1" "Z1" := ((hfs.2.1 aS (by simp) zS (by simp)).2.2).1
  have hlw0 : sol.lw "A1" "Z1" = 0 := le_antisymm hlwle hlwge
  have hlm0 : sol.lm "A1" "Z1" = 0 := le_antisymm hlmle hlmge
  rcases hy with hy0 | hy1
  · rw [hy0] at hlfcap
    exfalso
    rw [hlw0, hlm0, hy0] at hge
    nlinarith
  · refine ⟨hy1, ?_, hlw0, hlm0⟩
    rw [hlw0, hlm0, hy1] at hge
    apply le_antisymm hlf5
    linarith

/-- C6: (a) the per-Assignment ETA the extraction computes is exactly the
claim's formula (per-type speed, minutes, Python rounding, floor 1 on
positive distance); (b) every emitted Assignment carries that ETA and the
rounded solver loads for its asset-zone pair; (c) in the single-truck 10 km
scenario every optimal solve yields exactly one Assignment with
`load_food = 5` and `eta_minutes = round(10/35*60) = 17`. -/
theorem optimize_plan_eta_formula :
    (∀ (hav : ℚ → ℚ → ℚ → ℚ → ℚ) (depots : List Depot) (a : Asset) (z : Zone),
      etaFor hav depots a z = etaSpecFor hav depots a z)
    ∧ (∀ (hav : ℚ → ℚ → ℚ → ℚ → ℚ) (dmat : String → String → Option ℚ)
        (zones : List Zone) (depots : List Depot) (assets : List Asset)
        (sol : Solution) (g : Assignment),
        g ∈ (optimize_plan hav dmat zones depots assets (some sol)).assignments →
        ∃ a ∈ assets, ∃ z ∈ zones, g.asset_id = a.asset_id ∧ g.zone_id = z.zone_id
          ∧ g.eta_minutes = etaSpecFor hav depots a z
          ∧ g.load_food = pyRound (sol.lf a.asset_id z.zone_id)
          ∧ g.load_water = pyRound (sol.lw a.asset_id z.zone_id)
          ∧ g.load_med = pyRound (sol.lm a.asset_id z.zone_id))
    ∧ (∀ sol : Solution, IsOptimal hav10 dmatNone [zS] [dS] [aS] sol →
        (optimize_plan hav10 dmatNone [zS] [dS] [aS] (some sol)).assignments
          = [{ asset_id := "A1", zone_id := "Z1", load_food := 5, load_water := 0,
               load_med := 0, eta_minutes := 17 }]) := by
  refine ⟨etaFor_eq_spec, ?_, ?_⟩
  · intro hav dmat zones depots assets sol g hg
    have hg2 : g ∈ extractAssignments hav depots zones sol assets := hg
    obtain ⟨a, ha, z, hz, _, rfl⟩ :=
      mem_extractAssignments hav depots zones sol assets g hg2
    exact ⟨a, ha, z, hz, rfl, rfl, etaFor_eq_spec hav depots a z, rfl, rfl, rfl⟩
  · intro sol hopt
    obtain ⟨hy1, hlf, hlw, hlm⟩ := scenario_solution sol hopt
    have hplan : (optimize_plan hav10 dmatNone [zS] [dS] [aS] (some sol)).assignments
        = extractAssignments hav10 [dS] [zS] sol [aS] := rfl
    rw [hplan]
    unfold extractAssignments extractAssignments emitRow emitRow
    rw [if_pos (show (1/2 : ℚ) ≤ sol.y aS.asset_id zS.zone_id by
      rw [show sol.y aS.asset_id zS.zone_id = sol.y "A1" "Z1" from rfl, hy1]
      norm_num)]
    unfold mkAssignment
    simp only [aS, zS, List.nil_append]
    rw [hlf, hlw, hlm]
    rw [show etaFor hav10 [dS]
        { asset_id := "A1", type := "truck", start_depot := "D1", cap_food := 10,
          cap_water := 0, cap_med := 0 }
        { zone_id := "Z1", name := "Zone One", lat := 0, lon := 0, population := 100,
          access := "road_open", severity := 1/2, demand_food := 5, demand_water := 0,
          demand_med := 0 } = 17 from etaFor_scenario]
    norm_num [pyRound]

/-- The reference scenario solution is optimal. -/
theorem solS_optimal : IsOptimal hav10 dmatNone [zS] [dS] [aS] solS := by
  constructor
  · exact solS_feasible
  · intro s hs
    obtain ⟨hy01, hbounds, hone, hcap, hzone, hdepot⟩ := hs
    have hy : s.y "A1" "Z1" = 0 ∨ s.y "A1" "Z1" = 1 := by
      have h := hy01 aS (by simp) zS (by simp)
      rw [if_pos (by decide)] at h
      exact h
    have hlf5 : s.lf "A1" "Z1" ≤ 5 := by
      have h := (hzone zS (by simp)).1
      simp only [zS, aS, List.map_cons, List.map_nil, List.sum_cons, List.sum_nil] at h
      push_cast at h
      linarith
    have hlfcap : s.lf "A1" "Z1" ≤ 10 * s.y "A1" "Z1" := by
      have h := (hcap aS (by simp) zS (by simp)).1
      simpa [aS, zS] using h
    have hlfge : (0 : ℚ) ≤ s.lf "A1" "Z1" := ((hbounds aS (by simp) zS (by simp)).1).1
    have hlwle : s.lw "A1" "Z1" ≤ 0 := by
      have h := (hcap aS (by simp) zS (by simp)).2.1
      simpa [aS, zS] using h
    have hlmle : s.lm "A1" "Z1" ≤ 0 := by
      have h := (hcap aS (by simp) zS (by simp)).2.2
      simpa [aS, zS] using h
    rw [objectiveValue_scenario, objectiveValue_scenario]
    have hsolS : solS.lf "A1" "Z1" + solS.lw "A1" "Z1" + solS.lm "A1" "Z1"
        - (1/100) * solS.y "A1" "Z1" = 499/100 := by
      norm_num [solS]
    rw [hsolS]
    rcases hy with hy0 | hy1
    · rw [hy0]
      nlinarith
    · rw [hy1]
      nlinarith

/-- Witness for C6: the scenario applied to the concrete optimal solution. -/
theorem optimize_plan_eta_formula_witness :
    (optimize_plan hav10 dmatNone [zS] [dS] [aS] (some solS)).assignments
      = [{ asset_id := "A1", zone_id := "Z1", load_food := 5, load_water := 0,
           load_med := 0, eta_minutes := 17 }] :=
  optimize_plan_eta_formula.2.2 solS solS_optimal

/-- The fairness formula as the claim words it: 100 whenever the total unmet
demand is 0 (including no zones), else `max(0, 100 − min(100, 100 × cv))`
where cv is the population standard deviation over the mean of the per-zone
unmet totals. -/
noncomputable def specFairness (zones : List Zone) (assets : List Asset)
    (sol : Solution) : ℝ :=
  if (unmetList zones assets sol).sum = 0 then 100
  else
    max 0 (100 - min 100 (100 * (Real.sqrt ((varUnmet zones assets sol : ℚ) : ℝ)
      / ((meanUnmet zones assets sol : ℚ) : ℝ))))

/-- Every per-zone unmet total is non-negative. -/
theorem unmet_nonneg (zones : List Zone) (assets : List Asset) (sol : Solution) :
    ∀ x ∈ unmetList zones assets sol, (0 : ℚ) ≤ x := by
  intro x hx
  obtain ⟨z, _, rfl⟩ := List.mem_map.mp hx
  have h1 := le_max_right ((z.demand_food : ℚ) - deliveredSolF assets sol z) 0
  have h2 := le_max_right ((z.demand_water : ℚ) - deliveredSolW assets sol z) 0
  have h3 := le_max_right ((z.demand_med : ℚ) - deliveredSolM assets sol z) 0
  linarith

/-- The code's fairness computation equals the claim's formula (up to the
unreachable `mean = 0` guard and the commuted product). -/
theorem fairnessOf_eq_spec (zones : List Zone) (assets : List Asset)
    (sol : Solution) : fairnessOf zones assets sol = specFairness zones assets sol := by
  have hnn := unmet_nonneg zones assets sol
  have hsumnn : 0 ≤ (unmetList zones assets sol).sum := List.sum_nonneg hnn
  unfold fairnessOf specFairness
  by_cases hsum : (unmetList zones assets sol).sum = 0
  · rw [if_neg (fun hc => by rw [hsum] at hc; exact lt_irrefl 0 hc.2), if_pos hsum]
  · have hpos : 0 < (unmetList zones assets sol).sum :=
      lt_of_le_of_ne hsumnn (Ne.symm hsum)
    have hne : unmetList zones assets sol ≠ [] := by
      intro h
      rw [h] at hsum
      simp at hsum
    rw [if_pos ⟨hne, hpos⟩, if_neg hsum]
    have hlen : 0 < ((unmetList zones assets sol).length : ℚ) := by
      have h := List.length_pos.mpr hne
      exact_mod_cast h
    have hmean : meanUnmet zones assets sol ≠ 0 := by
      apply ne_of_gt
      unfold meanUnmet
      positivity
    unfold cvUnmet
    rw [if_neg hmean, mul_comm]

/-- The clamp `max(0, 100 - min(100, t))` stays within [0, 100] for t ≥ 0. -/
theorem clamp_bounds (t : ℝ) (h : 0 ≤ t) :
    0 ≤ max 0 (100 - min 100 t) ∧ max 0 (100 - min 100 t) ≤ 100 := by
  constructor
  · exact le_max_left 0 _
  · apply max_le (by norm_num)
    have hm : 0 ≤ min 100 t := le_min (by norm_num) h
    linarith

/-- The unrounded fairness value always lies in [0, 100]. -/
theorem fairnessOf_bounds (zones : List Zone) (assets : List Asset) (sol : Solution) :
    0 ≤ fairnessOf zones assets sol ∧ fairnessOf zones assets sol ≤ 100 := by
  unfold fairnessOf
  by_cases hc : unmetList zones assets sol ≠ [] ∧ 0 < (unmetList zones assets sol).sum
  · rw [if_pos hc]
    have hlen : 0 < ((unmetList zones assets sol).length : ℚ) := by
      have h := List.length_pos.mpr hc.1
      exact_mod_cast h
    have hmean : 0 < meanUnmet zones assets sol := by
      unfold meanUnmet
      exact div_pos hc.2 hlen
    refine clamp_bounds _ ?_
    refine mul_nonneg ?_ (by norm_num)
    unfold cvUnmet
    split_ifs with hm
    · exact le_refl 0
    · exact div_nonneg (Real.sqrt_nonneg _) (by exact_mod_cast le_of_lt hmean)
  · rw [if_neg hc]
    norm_num

/-- C7 (amended): the fairness KPI of every Plan computed from a successful
solve equals the claim's formula rounded to two decimals (Python
`round(fairness, 2)`); it lies in [0, 100], and it is exactly 100 whenever
the total unmet demand is 0. -/
theorem optimize_plan_fairness (hav : ℚ → ℚ → ℚ → ℚ → ℚ)
    (dmat : String → String → Option ℚ) (zones : List Zone) (depots : List Depot)
    (assets : List Asset) (sol : Solution)
    (_hfeas : Feasible zones depots assets sol) :
    (optimize_plan hav dmat zones depots assets (some sol)).kpis.fairness_percent
        = round2R (specFairness zones assets sol)
    ∧ 0 ≤ (optimize_plan hav dmat zones depots assets (some sol)).kpis.fairness_percent
    ∧ (optimize_plan hav dmat zones depots assets (some sol)).kpis.fairness_percent ≤ 100
    ∧ ((unmetList zones assets sol).sum = 0 →
        (optimize_plan hav dmat zones depots assets (some sol)).kpis.fairness_percent
          = 100) := by
  have hk : (optimize_plan hav dmat zones depots assets (some sol)).kpis.fairness_percent
      = round2R (fairnessOf zones assets sol) := rfl
  obtain ⟨hb0, hb100⟩ := fairnessOf_bounds zones assets sol
  refine ⟨?_, ?_, ?_, ?_⟩
  · rw [hk, fairnessOf_eq_spec]
  · rw [hk]
    exact round2R_nonneg _ hb0
  · rw [hk]
    exact round2R_le_hundred _ hb100
  · intro hz
    rw [hk]
    have hf : fairnessOf zones assets sol = 100 := by
      rw [fairnessOf_eq_spec]
      unfold specFairness
      simp only [if_pos hz]
    rw [hf, round2R_hundred]

/-- Witness for C7 at a concrete successful solve. -/
theorem optimize_plan_fairness_witness :
    (optimize_plan havZero dmatNone [zC1] [dC1] [aT1] (some solInt)).kpis.fairness_percent
        = round2R (specFairness [zC1] [aT1] solInt)
    ∧ 0 ≤ (optimize_plan havZero dmatNone [zC1] [dC1] [aT1] (some solInt)).kpis.fairness_percent
    ∧ (optimize_plan havZero dmatNone [zC1] [dC1] [aT1] (some solInt)).kpis.fairness_percent ≤ 100
    ∧ ((unmetList [zC1] [aT1] solInt).sum = 0 →
        (optimize_plan havZero dmatNone [zC1] [dC1] [aT1] (some solInt)).kpis.fairness_percent
          = 100) :=
  optimize_plan_fairness havZero dmatNone [zC1] [dC1] [aT1] solInt solInt_feasible

/-- First zone of the C7 counterexample instance (unmet 1). -/
def z7a : Zone :=
  { zone_id := "Z1", name := "Zone A", lat := 0, lon := 0, population := 10,
    access := "road_open", severity := 1/2, demand_food := 1, demand_water := 0,
    demand_med := 0 }

/-- Second zone of the C7 counterexample instance (unmet 2). -/
def z7b : Zone :=
  { zone_id := "Z2", name := "Zone B", lat := 0, lon := 0, population := 10,
    access := "road_open", severity := 1/2, demand_food := 2, demand_water := 0,
    demand_med := 0 }

/-- The all-zero solution (the only one once there are no assets). -/
def solZero : Solution :=
  { y := fun _ _ => 0, lf := fun _ _ => 0, lw := fun _ _ => 0, lm := fun _ _ => 0 }

/-- With no assets every solution is trivially optimal. -/
theorem solZero_optimal_c7 : IsOptimal havZero dmatNone [z7a, z7b] [] [] solZero := by
  constructor
  · refine ⟨?_, ?_, ?_, ?_, ?_, ?_⟩ <;> simp [z7a, z7b, solZero]
  · intro s _
    simp [objectiveValue]

/-- The unmet list of the C7 instance. -/
theorem unmetList_c7 : unmetList [z7a, z7b] [] solZero = [1, 2] := by
  simp [unmetList, deliveredSolF, deliveredSolW, deliveredSolM, z7a, z7b]

/-- The claim's unrounded fairness value on the C7 instance is 200/3. -/
theorem specFairness_c7 : specFairness [z7a, z7b] [] solZero = 200/3 := by
  have hmean : meanUnmet [z7a, z7b] [] solZero = 3/2 := by
    unfold meanUnmet
    rw [unmetList_c7]
    norm_num
  have hvar : varUnmet [z7a, z7b] [] solZero = 1/4 := by
    unfold varUnmet
    rw [unmetList_c7, hmean]
    norm_num
  unfold specFairness
  rw [unmetList_c7, hvar, hmean]
  rw [if_neg (by norm_num)]
  have hsqrt : Real.sqrt (((1/4 : ℚ) : ℝ)) = 1/2 := by
    rw [show (((1/4 : ℚ) : ℝ)) = (1/2 : ℝ)^2 by push_cast; norm_num]
    exact Real.sqrt_sq (by norm_num)
  rw [hsqrt]
  rw [show ((((3:ℚ)/2) : ℚ) : ℝ) = (3/2 : ℝ) by push_cast; norm_num]
  rw [show (100 : ℝ) * ((1/2) / (3/2)) = 100/3 by norm_num]
  rw [min_eq_right (by norm_num), max_eq_right (by norm_num)]
  norm_num

/-- Two-decimal rounding of 200/3 is 66.67, not 200/3. -/
theorem round2R_c7 : round2R ((200 : ℝ)/3) = 6667/100 := by
  have hx : (200 : ℝ)/3 * 100 = 20000/3 := by norm_num
  have hfloor : ⌊(20000 : ℝ)/3⌋ = 6666 := by
    rw [Int.floor_eq_iff]
    norm_num
  have hround : pyRoundR ((200 : ℝ)/3 * 100) = 6667 := by
    unfold pyRoundR
    rw [hx, hfloor]
    rw [if_neg (by norm_num), if_pos (by norm_num)]
    norm_num
  unfold round2R
  rw [hround]
  norm_num

/-- C7 counterexample: on a zero-asset two-zone instance with unmet totals
[1, 2] the claimed fairness value is 200/3, but the emitted KPI is its
two-decimal rounding 66.67, so the claim's exact-equality reading fails. -/
theorem claim_c7_counterexample :
    IsOptimal havZero dmatNone [z7a, z7b] [] [] solZero
    ∧ (optimize_plan havZero dmatNone [z7a, z7b] [] [] (some solZero)).kpis.fairness_percent
        ≠ specFairness [z7a, z7b] [] solZero := by
  refine ⟨solZero_optimal_c7, ?_⟩
  have hk : (optimize_plan havZero dmatNone [z7a, z7b] [] [] (some solZero)).kpis.fairness_percent
      = round2R (fairnessOf [z7a, z7b] [] solZero) := rfl
  rw [hk, fairnessOf_eq_spec, specFairness_c7, round2R_c7]
  norm_num

/-- With no zones, no asset row ever emits an Assignment. -/
theorem extract_nil_zones (hav : ℚ → ℚ → ℚ → ℚ → ℚ) (depots : List Depot)
    (sol : Solution) (assets : List Asset) :
    extractAssignments hav depots [] sol assets = [] := by
  induction assets with
  | nil => rfl
  | cons a rest ih => rw [extractAssignments, ih]; rfl

/-- C8 (amended): with zero zones a successful solve returns the empty plan
with coverage 0, fairness 100 and median ETA 0, exactly as claimed; with zero
assets it returns no assignments, coverage 0 and median ETA 0, but fairness is
100 only when the total unmet demand is 0 — the code computes the
dispersion-based fairness of the fully-unmet demands, not a constant 100. -/
theorem optimize_plan_empty_inputs :
    (∀ (hav : ℚ → ℚ → ℚ → ℚ → ℚ) (dmat : String → String → Option ℚ)
        (depots : List Depot) (assets : List Asset) (sol : Solution),
      (optimize_plan hav dmat [] depots assets (some sol)).assignments = []
      ∧ (optimize_plan hav dmat [] depots assets (some sol)).kpis.coverage_percent = 0
      ∧ (optimize_plan hav dmat [] depots assets (some sol)).kpis.fairness_percent = 100
      ∧ (optimize_plan hav dmat [] depots assets (some sol)).kpis.median_eta = 0)
    ∧ (∀ (hav : ℚ → ℚ → ℚ → ℚ → ℚ) (dmat : String → String → Option ℚ)
        (zones : List Zone) (depots : List Depot) (sol : Solution),
      (optimize_plan hav dmat zones depots [] (some sol)).assignments = []
      ∧ (optimize_plan hav dmat zones depots [] (some sol)).kpis.coverage_percent = 0
      ∧ (optimize_plan hav dmat zones depots [] (some sol)).kpis.median_eta = 0
      ∧ ((unmetList zones [] sol).sum = 0 →
          (optimize_plan hav dmat zones depots [] (some sol)).kpis.fairness_percent = 100)) := by
  constructor
  · intro hav dmat depots assets sol
    have hasg : (optimize_plan hav dmat [] depots assets (some sol)).assignments = [] :=
      extract_nil_zones hav depots sol assets
    refine ⟨hasg, ?_, ?_, ?_⟩
    · show round2Q (coverageOf [] (extractAssignments hav depots [] sol assets)) = 0
      rw [extract_nil_zones]
      have : coverageOf [] [] = 0 := by
        unfold coverageOf
        norm_num
      rw [this, round2Q_zero]
    · show round2R (fairnessOf [] assets sol) = 100
      have : fairnessOf [] assets sol = 100 := by
        unfold fairnessOf
        rw [if_neg (by simp [unmetList])]
      rw [this, round2R_hundred]
    · show pyRound (medianOfInts
        ((extractAssignments hav depots [] sol assets).map (·.eta_minutes))) = 0
      rw [extract_nil_zones]
      norm_num [medianOfInts, pyRound]
  · intro hav dmat zones depots sol
    have hasg : (optimize_plan hav dmat zones depots [] (some sol)).assignments = [] := rfl
    refine ⟨hasg, ?_, ?_, ?_⟩
    · show round2Q (coverageOf zones (extractAssignments hav depots zones sol [])) = 0
      have h0 : coverageOf zones [] = 0 := by
        unfold coverageOf
        simp
      show round2Q (coverageOf zones []) = 0
      rw [h0, round2Q_zero]
    · show pyRound (medianOfInts
        ((extractAssignments hav depots zones sol []).map (·.eta_minutes))) = 0
      show pyRound (medianOfInts ([] : List ℤ)) = 0
      norm_num [medianOfInts, pyRound]
    · intro hz
      show round2R (fairnessOf zones [] sol) = 100
      have : fairnessOf zones [] sol = 100 := by
        unfold fairnessOf
        rw [if_neg (fun hc => by rw [hz] at hc; exact lt_irrefl 0 hc.2)]
      rw [this, round2R_hundred]

/-- Witness for C8: the zero-zones branch at a concrete instance. -/
theorem optimize_plan_empty_inputs_witness :
    (optimize_plan havZero dmatNone [] [dC1] [aT1] (some solInt)).assignments = []
    ∧ (optimize_plan havZero dmatNone [] [dC1] [aT1] (some solInt)).kpis.coverage_percent = 0
    ∧ (optimize_plan havZero dmatNone [] [dC1] [aT1] (some solInt)).kpis.fairness_percent = 100
    ∧ (optimize_plan havZero dmatNone [] [dC1] [aT1] (some solInt)).kpis.median_eta = 0 :=
  optimize_plan_empty_inputs.1 havZero dmatNone [dC1] [aT1] solInt

/-- First zone of the C8 counterexample (fully unmet demand 10). -/
def z8a : Zone :=
  { zone_id := "Z1", name := "Zone A", lat := 0, lon := 0, population := 10,
    access := "road_open", severity := 1/2, demand_food := 10, demand_water := 0,
    demand_med := 0 }

/-- Second zone of the C8 counterexample (no demand at all). -/
def z8b : Zone :=
  { zone_id := "Z2", name := "Zone B", lat := 0, lon := 0, population := 10,
    access := "road_open", severity := 1/2, demand_food := 0, demand_water := 0,
    demand_med := 0 }

/-- With no assets every solution of the C8 instance is trivially optimal. -/
theorem solZero_optimal_c8 : IsOptimal havZero dmatNone [z8a, z8b] [] [] solZero := by
  constructor
  · refine ⟨?_, ?_, ?_, ?_, ?_, ?_⟩ <;> simp [z8a, z8b, solZero]
  · intro s _
    simp [objectiveValue]

/-- The unmet list of the C8 instance. -/
theorem unmetList_c8 : unmetList [z8a, z8b] [] solZero = [10, 0] := by
  simp [unmetList, deliveredSolF, deliveredSolW, deliveredSolM, z8a, z8b]

/-- The fairness value of the C8 instance is 0, not 100: the unmet totals
[10, 0] have coefficient of variation 1. -/
theorem fairnessOf_c8 : fairnessOf [z8a, z8b] [] solZero = 0 := by
  have hmean : meanUnmet [z8a, z8b] [] solZero = 5 := by
    unfold meanUnmet
    rw [unmetList_c8]
    norm_num
  have hvar : varUnmet [z8a, z8b] [] solZero = 25 := by
    unfold varUnmet
    rw [unmetList_c8, hmean]
    norm_num
  have hcv : cvUnmet [z8a, z8b] [] solZero = 1 := by
    unfold cvUnmet
    rw [hmean, hvar, if_neg (by norm_num)]
    have hsqrt : Real.sqrt (((25 : ℚ) : ℝ)) = 5 := by
      rw [show (((25 : ℚ) : ℝ)) = (5 : ℝ)^2 by push_cast; norm_num]
      exact Real.sqrt_sq (by norm_num)
    rw [hsqrt]
    norm_num
  unfold fairnessOf
  rw [if_pos ⟨by rw [unmetList_c8]; simp, by rw [unmetList_c8]; norm_num⟩, hcv]
  norm_num

/-- C8 counterexample: with zero assets and uneven demands the returned Plan
has no assignments, coverage 0 and median 0, but fairness 0 — not the claimed
100. -/
theorem claim_c8_counterexample :
    IsOptimal havZero dmatNone [z8a, z8b] [] [] solZero
    ∧ (optimize_plan havZero dmatNone [z8a, z8b] [] [] (some solZero)).assignments = []
    ∧ (optimize_plan havZero dmatNone [z8a, z8b] [] [] (some solZero)).kpis.coverage_percent = 0
    ∧ (optimize_plan havZero dmatNone [z8a, z8b] [] [] (some solZero)).kpis.median_eta = 0
    ∧ (optimize_plan havZero dmatNone [z8a, z8b] [] [] (some solZero)).kpis.fairness_percent = 0
    ∧ (optimize_plan havZero dmatNone [z8a, z8b] [] [] (some solZero)).kpis.fairness_percent ≠ 100 := by
  have hfair : (optimize_plan havZero dmatNone [z8a, z8b] [] [] (some solZero)).kpis.fairness_percent = 0 := by
    show round2R (fairnessOf [z8a, z8b] [] solZero) = 0
    rw [fairnessOf_c8, round2R_zero]
  refine ⟨solZero_optimal_c8, rfl, ?_, ?_, hfair, ?_⟩
  · show round2Q (coverageOf [z8a, z8b] (extractAssignments havZero [] [z8a, z8b] solZero [])) = 0
    show round2Q (coverageOf [z8a, z8b] []) = 0
    have h0 : coverageOf [z8a, z8b] [] = 0 := by
      unfold coverageOf
      norm_num [z8a, z8b]
    rw [h0, round2Q_zero]
  · show pyRound (medianOfInts ([] : List ℤ)) = 0
    norm_num [medianOfInts, pyRound]
  · rw [hfair]
    norm_num

/-- Event application never changes a zone's identifier or display name. -/
theorem applyZoneEvent_id_name (e : Event) (z : Zone) :
    (applyZoneEvent e z).zone_id = z.zone_id ∧ (applyZoneEvent e z).name = z.name := by
  unfold applyZoneEvent
  split_ifs <;> exact ⟨rfl, rfl⟩

/-- The mutation loop is a pointwise map over the zone list: every matching
zone is updated, wherever it sits. -/
theorem applyEventZones_eq_map (e : Event) (zones : List Zone) :
    applyEventZones e zones
      = zones.map (fun z => if matchesTarget e z then applyZoneEvent e z else z) := by
  induction zones with
  | nil => rfl
  | cons z rest ih => rw [applyEventZones, ih]; rfl

/-- C5 (amended): `apply_event` itself never signals anything — it mutates and
re-optimizes unconditionally — but the enclosing endpoint looks the target up
afterwards and raises the 404 "Zone ... not found" error exactly when no zone
matches by id or name, so its caller receives an error rather than a Plan. -/
theorem apply_event_endpoint_not_found (hav : ℚ → ℚ → ℚ → ℚ → ℚ) (e : Event)
    (zones : List Zone) (depots : List Depot) (assets : List Asset)
    (res : Option Solution) :
    ((∀ z ∈ zones, ¬(z.zone_id = e.target_zone ∨ z.name = e.target_zone)) →
      apply_event_endpoint hav e zones depots assets res
        = Except.error ("Zone " ++ e.target_zone ++ " not found"))
    ∧ ((∃ z ∈ zones, z.zone_id = e.target_zone ∨ z.name = e.target_zone) →
      ∃ st, apply_event_endpoint hav e zones depots assets res = Except.ok st) := by
  constructor
  · intro hno
    have hfind : (applyEventZones e zones).find?
        (fun z => z.zone_id == e.target_zone || z.name == e.target_zone) = none := by
      apply List.find?_eq_none.mpr
      intro x hx
      rw [applyEventZones_eq_map] at hx
      obtain ⟨z, hz, rfl⟩ := List.mem_map.mp hx
      have hid : (if matchesTarget e z then applyZoneEvent e z else z).zone_id
          = z.zone_id := by
        split_ifs
        · exact (applyZoneEvent_id_name e z).1
        · rfl
      have hnm : (if matchesTarget e z then applyZoneEvent e z else z).name
          = z.name := by
        split_ifs
        · exact (applyZoneEvent_id_name e z).2
        · rfl
      have hz2 := hno z hz
      push_neg at hz2
      simp only [hid, hnm, Bool.or_eq_true, beq_iff_eq]
      push_neg
      exact hz2
    show apply_event_endpoint hav e zones depots assets res = _
    unfold apply_event_endpoint apply_event
    simp only [hfind]
  · intro hyes
    obtain ⟨z0, hz0, hm⟩ := hyes
    have hmem : (if matchesTarget e z0 then applyZoneEvent e z0 else z0)
        ∈ applyEventZones e zones := by
      rw [applyEventZones_eq_map]
      exact List.mem_map.mpr ⟨z0, hz0, rfl⟩
    have hpred : ((if matchesTarget e z0 then applyZoneEvent e z0 else z0).zone_id
          == e.target_zone
        || (if matchesTarget e z0 then applyZoneEvent e z0 else z0).name
          == e.target_zone) = true := by
      have hid : (if matchesTarget e z0 then applyZoneEvent e z0 else z0).zone_id
          = z0.zone_id := by
        split_ifs
        · exact (applyZoneEvent_id_name e z0).1
        · rfl
      have hnm : (if matchesTarget e z0 then applyZoneEvent e z0 else z0).name
          = z0.name := by
        split_ifs
        · exact (applyZoneEvent_id_name e z0).2
        · rfl
      simp only [hid, hnm, Bool.or_eq_true, beq_iff_eq]
      exact hm
    have hsome : ((applyEventZones e zones).find?
        (fun z => z.zone_id == e.target_zone || z.name == e.target_zone)).isSome := by
      rw [List.find?_isSome]
      exact ⟨_, hmem, hpred⟩
    obtain ⟨w, hw⟩ := Option.isSome_iff_exists.mp hsome
    refine ⟨(applyEventZones e zones,
      optimize_plan hav (computeDistanceMatrix hav depots (applyEventZones e zones))
        (applyEventZones e zones) depots assets res), ?_⟩
    unfold apply_event_endpoint apply_event
    simp only [hw]

/-- Event targeting a reference no zone carries. -/
def e5 : Event :=
  { type := "road_block", target_zone := "NOWHERE", food_demand := none,
    water_demand := none, medical_demand := none, new_access := none }

/-- C5 counterexample: on a target matching no zone, `apply_event` itself
signals nothing — it leaves the snapshot untouched and still returns a
freshly optimized Plan (the 404 is raised later, by the endpoint). -/
theorem claim_c5_counterexample :
    apply_event havZero e5 [zC1] [dC1] [aT1] (some solInt)
      = ([zC1], optimize_plan havZero (computeDistanceMatrix havZero [dC1] [zC1])
          [zC1] [dC1] [aT1] (some solInt)) := by
  have hz : applyEventZones e5 [zC1] = [zC1] := by
    rw [applyEventZones, applyEventZones]
    rw [if_neg (by decide)]
  unfold apply_event
  rw [hz]

/-- Witness for C5: a concrete unmatched target produces the 404 error, and a
concrete matched target produces a success. -/
theorem apply_event_endpoint_not_found_witness :
    apply_event_endpoint havZero e5 [zC1] [dC1] [aT1] (some solInt)
      = Except.error ("Zone " ++ e5.target_zone ++ " not found") :=
  (apply_event_endpoint_not_found havZero e5 [zC1] [dC1] [aT1] (some solInt)).1
    (by intro z hz; rw [List.mem_singleton] at hz; subst hz; decide)

/-- C9 (amended): the per-zone transition table, with the Python-truthiness
caveat: an explicit `new_access` override is honored only when non-empty (the
source uses `event.new_access or default`, and the empty string is falsy);
`sos_spike` overwrites exactly the demand fields that carry an explicit
override; every other zone field is untouched, and `apply_event` passes the
depot and asset records through to the re-optimization unchanged. -/
theorem apply_event_transition (e : Event) (z : Zone) :
    (e.type = "road_block" →
      ((∀ s, e.new_access = some s → s ≠ "" →
          applyZoneEvent e z = { z with access := s })
       ∧ ((e.new_access = none ∨ e.new_access = some "") →
          applyZoneEvent e z = { z with access := "boat_only" })))
    ∧ (e.type = "road_clear" →
      ((∀ s, e.new_access = some s → s ≠ "" →
          applyZoneEvent e z = { z with access := s })
       ∧ ((e.new_access = none ∨ e.new_access = some "") →
          applyZoneEvent e z = { z with access := "road_open" })))
    ∧ (e.type = "sos_spike" →
        applyZoneEvent e z =
          { z with
            demand_food := e.food_demand.getD z.demand_food
            demand_water := e.water_demand.getD z.demand_water
            demand_med := e.medical_demand.getD z.demand_med })
    ∧ (∀ (hav : ℚ → ℚ → ℚ → ℚ → ℚ) (zones : List Zone) (depots : List Depot)
        (assets : List Asset) (res : Option Solution),
        apply_event hav e zones depots assets res
          = (applyEventZones e zones,
             optimize_plan hav (computeDistanceMatrix hav depots (applyEventZones e zones))
               (applyEventZones e zones) depots assets res)) := by
  refine ⟨?_, ?_, ?_, ?_⟩
  · intro ht
    constructor
    · intro s hs hne
      unfold applyZoneEvent
      rw [if_pos ht, hs]
      simp only [pyOr]
      rw [if_neg hne]
    · intro hcases
      unfold applyZoneEvent
      rw [if_pos ht]
      rcases hcases with hn | he
      · rw [hn]
        rfl
      · rw [he]
        rfl
  · intro ht
    have hne1 : ¬ e.type = "road_block" := by rw [ht]; decide
    constructor
    · intro s hs hne
      unfold applyZoneEvent
      rw [if_neg hne1, if_pos ht, hs]
      simp only [pyOr]
      rw [if_neg hne]
    · intro hcases
      unfold applyZoneEvent
      rw [if_neg hne1, if_pos ht]
      rcases hcases with hn | he
      · rw [hn]
        rfl
      · rw [he]
        rfl
  · intro ht
    have hne1 : ¬ e.type = "road_block" := by rw [ht]; decide
    have hne2 : ¬ e.type = "road_clear" := by rw [ht]; decide
    unfold applyZoneEvent
    rw [if_neg hne1, if_neg hne2, if_pos ht]
  · intro hav zones depots assets res
    rfl

/-- Road-block event carrying an explicit empty-string access override. -/
def e9 : Event :=
  { type := "road_block", target_zone := "Z1", food_demand := none,
    water_demand := none, medical_demand := none, new_access := some "" }

/-- C9 counterexample: a provided-but-empty `new_access` is not applied — the
zone's access becomes the default `boat_only`, not the explicit override. -/
theorem claim_c9_counterexample :
    e9.new_access = some ""
    ∧ matchesTarget e9 zC1 = true
    ∧ (applyZoneEvent e9 zC1).access = "boat_only"
    ∧ (applyZoneEvent e9 zC1).access ≠ "" := by
  refine ⟨rfl, by decide, ?_, ?_⟩
  · unfold applyZoneEvent
    rw [if_pos (show e9.type = "road_block" from rfl)]
    rfl
  · unfold applyZoneEvent
    rw [if_pos (show e9.type = "road_block" from rfl)]
    decide

/-- An sos_spike event overriding food and medical but not water. -/
def e9w : Event :=
  { type := "sos_spike", target_zone := "Z1", food_demand := some 7,
    water_demand := none, medical_demand := some 0, new_access := none }

/-- Witness for C9: the sos_spike case applied concretely — provided overrides
(including an explicit 0) land, the absent one leaves the field unchanged. -/
theorem apply_event_transition_witness :
    applyZoneEvent e9w zC1 =
      { zC1 with
        demand_food := e9w.food_demand.getD zC1.demand_food
        demand_water := e9w.water_demand.getD zC1.demand_water
        demand_med := e9w.medical_demand.getD zC1.demand_med } :=
  (apply_event_transition e9w zC1).2.2.1 rfl

/-- C10: the mutation loop of `apply_event` visits the whole zone list without
breaking: the result is the pointwise image in which every zone matching the
target by id or by name is updated (not only the first), and the single
re-optimization then runs once over that fully mutated list with the original
depots and assets. -/
theorem apply_event_mutates_all_matches :
    (∀ (e : Event) (zones : List Zone),
      applyEventZones e zones
        = zones.map (fun z => if matchesTarget e z then applyZoneEvent e z else z))
    ∧ (∀ (e : Event) (zones : List Zone) (z : Zone), z ∈ zones →
        matchesTarget e z = true → applyZoneEvent e z ∈ applyEventZones e zones)
    ∧ (∀ (hav : ℚ → ℚ → ℚ → ℚ → ℚ) (e : Event) (zones : List Zone)
        (depots : List Depot) (assets : List Asset) (res : Option Solution),
        (apply_event hav e zones depots assets res).1 = applyEventZones e zones
        ∧ (apply_event hav e zones depots assets res).2
          = optimize_plan hav
              (computeDistanceMatrix hav depots (applyEventZones e zones))
              (applyEventZones e zones) depots assets res) := by
  refine ⟨applyEventZones_eq_map, ?_, ?_⟩
  · intro e zones z hz hm
    rw [applyEventZones_eq_map]
    have : applyZoneEvent e z = (fun z => if matchesTarget e z then applyZoneEvent e z else z) z := by
      simp only [hm, if_true]
    rw [this]
    exact List.mem_map_of_mem _ hz
  · intro hav e zones depots assets res
    exact ⟨rfl, rfl⟩

/-- Event whose target is matched by one zone's id and another zone's name. -/
def e10 : Event :=
  { type := "road_block", target_zone := "X", food_demand := none,
    water_demand := none, medical_demand := none, new_access := none }

/-- Zone matching the C10 event by identifier. -/
def z10a : Zone :=
  { zone_id := "X", name := "Alpha", lat := 0, lon := 0, population := 10,
    access := "road_open", severity := 0, demand_food := 1, demand_water := 0,
    demand_med := 0 }

/-- Zone matching the C10 event by display name. -/
def z10b : Zone :=
  { zone_id := "Z9", name := "X", lat := 0, lon := 0, population := 10,
    access := "road_open", severity := 0, demand_food := 2, demand_water := 0,
    demand_med := 0 }

/-- Witness for C10: with one zone matching by id and another by name, both
zones of the mutated list carry the `boat_only` access, not only the first. -/
theorem apply_event_mutates_all_matches_witness :
    applyEventZones e10 [z10a, z10b]
      = [{ z10a with access := "boat_only" }, { z10b with access := "boat_only" }]
    ∧ applyZoneEvent e10 z10b ∈ applyEventZones e10 [z10a, z10b] := by
  constructor
  · rw [apply_event_mutates_all_matches.1 e10 [z10a, z10b]]
    decide
  · exact apply_event_mutates_all_matches.2.1 e10 [z10a, z10b] z10b (by simp) (by decide)
